import Mathlib

/-!
Verification of the ContextKeeper ingestion subsystem against its
natural-language specification. The definitions below are a shallow
embedding of the Go sources: internal/services/github.go (extraction
client), internal/repository/repository.go (persistence layer),
internal/services/jwt.go (token construction and validation), and the
job orchestrator, which is not present in the source tree and is
therefore modelled from the specification where noted.

Conventions: Go machine integers are modelled as Nat or Int; Go time
values as integers (Unix seconds); Go byte strings at the token layer
as lists of Nat (each byte below 256); fallible operations return
Option or Except.
-/

namespace ContextKeeper

/- ### Extraction client error values

Each constructor corresponds to one error-producing site of
makeRequestWithRetry and the decode step in internal/services/github.go
(lines 275-321). Go carries these as untyped error values whose only
structure is the message; renderGHError reproduces the exact message. -/

inductive GHError where
  /-- Raw transport error from httpClient.Do, recorded as lastErr on the
  first attempt (github.go line 282); never escapes the retry loop. -/
  | netDo (msg : String)
  /-- Wrapped transport error returned when the second attempt also fails
  at the connection level (github.go line 287). -/
  | httpFailedAfterRetry (msg : String)
  /-- Rate-limit error returned for a 403 response whose
  X-RateLimit-Remaining header equals "0" (github.go line 296). -/
  | rateLimitExceeded (resetTime : String)
  /-- Generic HTTP status error for responses with status at least 400
  (github.go line 302). -/
  | requestFailedStatus (status : Nat)
  /-- JSON decoding failure on a success response (github.go line 313). -/
  | decodeFailed (msg : String)
deriving DecidableEq, Repr

/-- Exact Go error message for each error value, as produced by the
fmt.Errorf calls in internal/services/github.go. -/
def renderGHError : GHError → String
  | GHError.netDo msg => msg
  | GHError.httpFailedAfterRetry msg => "HTTP request failed after retry: " ++ msg
  | GHError.rateLimitExceeded resetTime =>
      "GitHub API rate limit exceeded, resets at " ++ resetTime
  | GHError.requestFailedStatus status =>
      "GitHub API request failed with status " ++ toString status
  | GHError.decodeFailed msg => "failed to decode response: " ++ msg

/-- Outcome of one HTTP attempt as seen by the retry loop: either the
transport fails, or a response arrives with a status code, the two
rate-limit headers (Header.Get returns the empty string when a header is
absent), and a body that decodes to a value of the expected type or not. -/
inductive HttpAttempt (β : Type) where
  | netError (msg : String)
  | response (status : Nat) (rateLimitRemaining : String) (rateLimitReset : String)
      (body : Option β)

/-- Result of makeRequestWithRetry together with the observable protocol
facts the specification talks about: how many HTTP attempts were made and
which backoff sleeps (in seconds) were performed between attempts. -/
structure RetryOutcome (β : Type) where
  result : Except GHError β
  attemptsMade : Nat
  backoffs : List Nat
deriving Repr

/-- Backoff before retrying after a transport failure: 1 second
(github.go line 284). -/
def netErrorBackoff : Nat := 1

/-- Backoff before retrying after a 5xx response: 2 seconds
(github.go line 304). -/
def serverErrorBackoff : Nat := 2

/-- One iteration of the retry loop body of makeRequestWithRetry
(github.go lines 279-318). Sum.inl (lastErr, backoff) models the Go
continue path (sleep then next attempt, with lastErr recorded);
Sum.inr models every return path. -/
def retryStep {β : Type} (attempt : Nat) (a : HttpAttempt β) :
    (GHError × Nat) ⊕ (Except GHError β) :=
  match a with
  | HttpAttempt.netError msg =>
      if attempt = 0 then Sum.inl (GHError.netDo msg, netErrorBackoff)
      else Sum.inr (Except.error (GHError.httpFailedAfterRetry msg))
  | HttpAttempt.response status rateLimitRemaining rateLimitReset body =>
      if status = 403 ∧ rateLimitRemaining = "0" then
        Sum.inr (Except.error (GHError.rateLimitExceeded rateLimitReset))
      else if 400 ≤ status then
        if attempt = 0 ∧ 500 ≤ status then
          Sum.inl (GHError.requestFailedStatus status, serverErrorBackoff)
        else Sum.inr (Except.error (GHError.requestFailedStatus status))
      else
        match body with
        | some b => Sum.inr (Except.ok b)
        | none => Sum.inr (Except.error (GHError.decodeFailed "decode"))

/-- Retry logic of internal/services/github.go lines 275-321: at most two
attempts; the server is modelled as a function from the attempt index to
that attempt's outcome. The final fallthrough return lastErr of the Go
code is unreachable (the loop body never continues on attempt 1) but is
mirrored in the last match arm. -/
def makeRequestWithRetry {β : Type} (server : Nat → HttpAttempt β) : RetryOutcome β :=
  match retryStep 0 (server 0) with
  | Sum.inr r => ⟨r, 1, []⟩
  | Sum.inl (_, backoff0) =>
    match retryStep 1 (server 1) with
    | Sum.inr r => ⟨r, 2, [backoff0]⟩
    | Sum.inl (lastErr, _) => ⟨Except.error lastErr, 2, [backoff0]⟩

/- ### Wire types and normalized entities

The wire structures mirror the decoded JSON shapes declared in
internal/services/github.go lines 42-89; fields absent from those struct
declarations are dropped by Go json decoding, which the Raw record types
below make explicit: a raw upstream record is its decodable core plus the
fields outside the allow-list, which decoding discards. -/

structure GitHubPullRequest where
  id : Int
  number : Nat
  title : String
  body : String
  userLogin : String
  state : String
  createdAt : Int
  mergedAt : Option Int
  labels : List String
deriving DecidableEq, Repr

structure GitHubIssue where
  id : Int
  title : String
  body : String
  number : Nat
  userLogin : String
  state : String
  createdAt : Int
  closedAt : Option Int
  labels : List String
deriving DecidableEq, Repr

structure GitHubCommit where
  sha : String
  message : String
  authorName : String
  authorDate : Int
  files : List String
deriving DecidableEq, Repr

/-- Upstream pull-request listing record: the decodable core plus any
additional payload fields, which Go json decoding into GitHubPullRequest
ignores. -/
structure RawPR where
  core : GitHubPullRequest
  extra : List (String × String)
deriving DecidableEq, Repr

/-- Upstream issue listing record, including fields outside the
allow-list; in particular a pull-request linkage field present in the
payload when the record is a pull request appears only in extra. -/
structure RawIssue where
  core : GitHubIssue
  extra : List (String × String)
deriving DecidableEq, Repr

/-- Upstream commit listing record with its non-allow-listed fields. -/
structure RawCommit where
  core : GitHubCommit
  extra : List (String × String)
deriving DecidableEq, Repr

/- ### Normalized model entities (package internal/models, not under
src/; field sets read off the conversions in github.go and the column
lists in repository.go). RepoId is zero after extraction, matching the
Go zero value, and is filled in by the orchestrator before persisting. -/

structure PullRequest where
  id : Int
  repoId : Int
  number : Nat
  title : String
  body : String
  author : String
  state : String
  createdAt : Int
  mergedAt : Option Int
  filesChanged : List String
  labels : List String
deriving DecidableEq, Repr

structure Issue where
  id : Int
  repoId : Int
  title : String
  body : String
  author : String
  state : String
  createdAt : Int
  closedAt : Option Int
  labels : List String
deriving DecidableEq, Repr

structure Commit where
  sha : String
  repoId : Int
  message : String
  author : String
  createdAt : Int
  filesChanged : List String
deriving DecidableEq, Repr

/-- Oracle for the secondary per-pull-request files request
(getPullRequestFiles, github.go lines 324-342), indexed by the
pull-request number that appears in the request URL. -/
def FilesOracle : Type := Nat → Except GHError (List String)

/-- Conversion of one decoded pull request into the normalized entity
(github.go lines 137-162): the files oracle failure degrades the changed
file list to the empty list (lines 140-143) without failing the batch. -/
def normalizePullRequest (filesOracle : FilesOracle) (gh : GitHubPullRequest) :
    PullRequest :=
  { id := gh.id
    repoId := 0
    number := gh.number
    title := gh.title
    body := gh.body
    author := gh.userLogin
    state := gh.state
    createdAt := gh.createdAt
    mergedAt := gh.mergedAt
    filesChanged :=
      match filesOracle gh.number with
      | Except.ok files => files
      | Except.error _ => []
    labels := gh.labels }

/-- Conversion of one decoded issue into the normalized entity
(github.go lines 187-202). -/
def normalizeIssue (gh : GitHubIssue) : Issue :=
  { id := gh.id
    repoId := 0
    title := gh.title
    body := gh.body
    author := gh.userLogin
    state := gh.state
    createdAt := gh.createdAt
    closedAt := gh.closedAt
    labels := gh.labels }

/-- Conversion of one decoded commit into the normalized entity
(github.go lines 222-235). -/
def normalizeCommit (gh : GitHubCommit) : Commit :=
  { sha := gh.sha
    repoId := 0
    message := gh.message
    author := gh.authorName
    createdAt := gh.authorDate
    filesChanged := gh.files }

/-- Hosting API serving one listing page: the request URL sets the page
size parameter to the requested limit (github.go lines 126, 170, 211)
and orders most-recent-activity-first (sort=updated and direction=desc
for pull requests and issues, reverse-chronological default for
commits), so the served page is the first per-page entries of the
upstream listing, whose index order is most-recent-first. -/
def serveListing {α : Type} (available : List α) (perPage : Nat) : List α :=
  available.take perPage

/-- GetPullRequests (github.go lines 125-166) on a successfully served
listing page: decode each record (dropping non-allow-listed fields) and
normalize it, fetching the changed files through the secondary request
oracle. -/
def GetPullRequests (filesOracle : FilesOracle) (available : List RawPR)
    (limit : Nat) : List PullRequest :=
  (serveListing available limit).map
    (fun r => normalizePullRequest filesOracle r.core)

/-- Predicate of github.go lines 345-350 deciding whether an issue
listing record is actually a pull request; the source returns the
constant false. -/
def isPullRequest (_issue : GitHubIssue) : Bool := false

/-- GetIssues (github.go lines 169-207) on a successfully served listing
page: decode each record, skip those isPullRequest classifies as pull
requests, and normalize the rest. -/
def GetIssues (available : List RawIssue) (limit : Nat) : List Issue :=
  (((serveListing available limit).map (fun r => r.core)).filter
    (fun gh => !isPullRequest gh)).map normalizeIssue

/-- GetCommits (github.go lines 210-239) on a successfully served
listing page. -/
def GetCommits (available : List RawCommit) (limit : Nat) : List Commit :=
  ((serveListing available limit).map (fun r => r.core)).map normalizeCommit

/- ### Persistence layer (internal/repository/repository.go)

Each content table is modelled as a list of rows; the SQL upserts with
ON CONFLICT ... DO UPDATE become: if a row with the conflict key exists,
rewrite exactly the columns of the SET list on every matching row,
otherwise append the new row. -/

/-- Conflict key of the pull_requests table: UNIQUE(repo_id, number)
(migrations.go line 49, repository.go line 88). -/
def prKeyMatches (r pr : PullRequest) : Bool :=
  r.repoId == pr.repoId && r.number == pr.number

/-- CreatePullRequest (repository.go lines 84-100): upsert by
(repo_id, number); the DO UPDATE SET list is title, body, state,
merged_at, files_changed, labels. -/
def CreatePullRequest (table : List PullRequest) (pr : PullRequest) :
    List PullRequest :=
  if table.any (fun r => prKeyMatches r pr) then
    table.map (fun r =>
      if prKeyMatches r pr then
        { r with
          title := pr.title
          body := pr.body
          state := pr.state
          mergedAt := pr.mergedAt
          filesChanged := pr.filesChanged
          labels := pr.labels }
      else r)
  else table ++ [pr]

/-- CreateIssue (repository.go lines 131-146): upsert by the global
issue id; the DO UPDATE SET list is title, body, state, closed_at,
labels. -/
def CreateIssue (table : List Issue) (issue : Issue) : List Issue :=
  if table.any (fun r => r.id == issue.id) then
    table.map (fun r =>
      if r.id == issue.id then
        { r with
          title := issue.title
          body := issue.body
          state := issue.state
          closedAt := issue.closedAt
          labels := issue.labels }
      else r)
  else table ++ [issue]

/-- CreateCommit (repository.go lines 177-190): upsert by sha; the
DO UPDATE SET list is message, author, created_at, files_changed. -/
def CreateCommit (table : List Commit) (commit : Commit) : List Commit :=
  if table.any (fun r => r.sha == commit.sha) then
    table.map (fun r =>
      if r.sha == commit.sha then
        { r with
          message := commit.message
          author := commit.author
          createdAt := commit.createdAt
          filesChanged := commit.filesChanged }
      else r)
  else table ++ [commit]

/- ### Ingestion jobs -/

inductive JobStatus where
  | pending
  | running
  | completed
  | partialSuccess
  | failed
deriving DecidableEq, Repr

structure IngestionJob where
  id : Int
  repoId : Int
  status : JobStatus
  startedAt : Option Int
  finishedAt : Option Int
  errorMsg : Option String
deriving DecidableEq, Repr

/-- UpdateJobStatus (repository.go lines 231-245): for status running
the UPDATE sets only status and started_at; for every other status it
sets only status, finished_at and error_message. The timestamp written
is time.Now(), passed here as now. -/
def UpdateJobStatus (job : IngestionJob) (status : JobStatus)
    (errorMsg : Option String) (now : Int) : IngestionJob :=
  if status = JobStatus.running then
    { job with status := status, startedAt := some now }
  else
    { job with status := status, finishedAt := some now, errorMsg := errorMsg }

/- ### Job orchestrator -/

/-- Extraction limits of one ingestion job. Modelled from the spec: the
JobService implementation that passes these limits to the extraction
client is not under src/; the spec fixes them as at most 50 pull
requests, 50 issues, 100 commits per job. -/
def prJobLimit : Nat := 50

/-- Modelled from the spec: per-job issue extraction limit. -/
def issueJobLimit : Nat := 50

/-- Modelled from the spec: per-job commit extraction limit. -/
def commitJobLimit : Nat := 100

/-- Classifies an error value as a rate-limit failure. -/
def isRateLimitError : GHError → Bool
  | GHError.rateLimitExceeded _ => true
  | _ => false

/-- Outcome of one job execution after the running state was reached:
the terminal status, the persisted error text, and the entities each
per-kind step persisted. -/
structure JobOutcome where
  status : JobStatus
  errorMsg : Option String
  persistedPRs : List PullRequest
  persistedIssues : List Issue
  persistedCommits : List Commit
deriving Repr

/-- Number of failed extraction steps among the three per-kind results. -/
def failureCount (prRes : Except GHError (List PullRequest))
    (issueRes : Except GHError (List Issue))
    (commitRes : Except GHError (List Commit)) : Nat :=
  (if prRes.isOk then 0 else 1) + (if issueRes.isOk then 0 else 1) +
    (if commitRes.isOk then 0 else 1)

/-- Message of the first failure encountered, in pull-request, then
issue, then commit order. -/
def firstFailureMessage (prRes : Except GHError (List PullRequest))
    (issueRes : Except GHError (List Issue))
    (commitRes : Except GHError (List Commit)) : Option String :=
  match prRes with
  | Except.error e => some (renderGHError e)
  | Except.ok _ =>
    match issueRes with
    | Except.error e => some (renderGHError e)
    | Except.ok _ =>
      match commitRes with
      | Except.error e => some (renderGHError e)
      | Except.ok _ => none

/-- Modelled from the spec: the JobService implementation (ProcessJob,
constructed by services.NewJobService and invoked from the ingestion
handler) is not under src/; only its callers, its interface and its
mocks are. Following the transition rule of the spec, the three
extraction-plus-persist steps run independently, each failed kind
persists nothing, zero failures give completed, one or two failures with
at least one success give partial, three failures give failed, and when
the terminal state is not completed the persisted error text is the
message of the first failure in pull-request, issue, commit order. -/
def ProcessJob (prRes : Except GHError (List PullRequest))
    (issueRes : Except GHError (List Issue))
    (commitRes : Except GHError (List Commit)) : JobOutcome :=
  let failures := failureCount prRes issueRes commitRes
  { status :=
      if failures = 0 then JobStatus.completed
      else if failures = 3 then JobStatus.failed
      else JobStatus.partialSuccess
    errorMsg :=
      if failures = 0 then none
      else firstFailureMessage prRes issueRes commitRes
    persistedPRs := match prRes with | Except.ok l => l | Except.error _ => []
    persistedIssues := match issueRes with | Except.ok l => l | Except.error _ => []
    persistedCommits := match commitRes with | Except.ok l => l | Except.error _ => [] }

/- ### Token layer (internal/services/jwt.go)

Go strings are byte sequences; this layer models them as lists of Nat,
a list being a valid Go string when every entry is below 256. The
library primitives the Go code calls (encoding/base64 RawURLEncoding,
crypto/sha256, crypto/hmac, encoding/json on the two fixed struct
shapes, strings.Split) are modelled concretely below. -/

/-- Valid Go byte string: every byte below 256. -/
def BytesOk (bs : List Nat) : Prop := ∀ b ∈ bs, b < 256

instance (bs : List Nat) : Decidable (BytesOk bs) := by
  unfold BytesOk; infer_instance

/-- Byte codes of an ASCII Lean string literal, used to spell out the
constant byte sequences of the Go sources. -/
def ascii (s : String) : List Nat := s.data.map Char.toNat

/-- Alphabet of base64url (RawURLEncoding): value 0-63 to ASCII code. -/
def b64Char (n : Nat) : Nat :=
  if n < 26 then 65 + n
  else if n < 52 then 97 + (n - 26)
  else if n < 62 then 48 + (n - 52)
  else if n = 62 then 45
  else 95

/-- Inverse alphabet lookup of base64url decoding. -/
def b64CharDec (c : Nat) : Option Nat :=
  if 65 ≤ c ∧ c ≤ 90 then some (c - 65)
  else if 97 ≤ c ∧ c ≤ 122 then some (c - 97 + 26)
  else if 48 ≤ c ∧ c ≤ 57 then some (c - 48 + 52)
  else if c = 45 then some 62
  else if c = 95 then some 63
  else none

/-- base64.RawURLEncoding.EncodeToString: unpadded base64url encoding of
a byte sequence. -/
def base64urlEncode : List Nat → List Nat
  | [] => []
  | [b1] => [b64Char (b1 / 4), b64Char (b1 % 4 * 16)]
  | [b1, b2] => [b64Char (b1 / 4), b64Char (b1 % 4 * 16 + b2 / 16), b64Char (b2 % 16 * 4)]
  | b1 :: b2 :: b3 :: rest =>
      b64Char (b1 / 4) :: b64Char (b1 % 4 * 16 + b2 / 16) ::
        b64Char (b2 % 16 * 4 + b3 / 64) :: b64Char (b3 % 64) :: base64urlEncode rest

/-- base64.RawURLEncoding.DecodeString: unpadded base64url decoding. -/
def base64urlDecode : List Nat → Option (List Nat)
  | [] => some []
  | [_] => none
  | [c1, c2] => do
      let v1 ← b64CharDec c1
      let v2 ← b64CharDec c2
      pure [v1 * 4 + v2 / 16]
  | [c1, c2, c3] => do
      let v1 ← b64CharDec c1
      let v2 ← b64CharDec c2
      let v3 ← b64CharDec c3
      pure [v1 * 4 + v2 / 16, v2 % 16 * 16 + v3 / 4]
  | c1 :: c2 :: c3 :: c4 :: rest => do
      let v1 ← b64CharDec c1
      let v2 ← b64CharDec c2
      let v3 ← b64CharDec c3
      let v4 ← b64CharDec c4
      let tail ← base64urlDecode rest
      pure ([v1 * 4 + v2 / 16, v2 % 16 * 16 + v3 / 4, v3 % 4 * 64 + v4] ++ tail)

/- ### SHA-256 (crypto/sha256), on 32-bit words as Nat reduced modulo
2 to the 32. -/

/-- Reduction to a 32-bit word. -/
def w32 (x : Nat) : Nat := x % 4294967296

/-- 32-bit modular addition. -/
def wadd (a b : Nat) : Nat := (a + b) % 4294967296

/-- Right rotation of a 32-bit word by n bits. -/
def wrot (n x : Nat) : Nat := w32 (x / 2 ^ n + x % 2 ^ n * 2 ^ (32 - n))

/-- Logical right shift of a 32-bit word by n bits. -/
def wshr (n x : Nat) : Nat := w32 x / 2 ^ n

def bigSigma0 (x : Nat) : Nat := wrot 2 x ^^^ wrot 13 x ^^^ wrot 22 x

def bigSigma1 (x : Nat) : Nat := wrot 6 x ^^^ wrot 11 x ^^^ wrot 25 x

def smallSigma0 (x : Nat) : Nat := wrot 7 x ^^^ wrot 18 x ^^^ wshr 3 x

def smallSigma1 (x : Nat) : Nat := wrot 17 x ^^^ wrot 19 x ^^^ wshr 10 x

/-- Choice function of the SHA-256 round; the complement is taken inside
32 bits. -/
def chWord (x y z : Nat) : Nat := (x &&& y) ^^^ ((4294967295 - w32 x) &&& z)

/-- Majority function of the SHA-256 round. -/
def majWord (x y z : Nat) : Nat := (x &&& y) ^^^ (x &&& z) ^^^ (y &&& z)

/-- SHA-256 round constants. -/
def sha256K : List Nat :=
  [1116352408, 1899447441, 3049323471, 3921009573, 961987163, 1508970993,
   2453635748, 2870763221, 3624381080, 310598401, 607225278, 1426881987,
   1925078388, 2162078206, 2614888103, 3248222580, 3835390401, 4022224774,
   264347078, 604807628, 770255983, 1249150122, 1555081692, 1996064986,
   2554220882, 2821834349, 2952996808, 3210313671, 3336571891, 3584528711,
   113926993, 338241895, 666307205, 773529912, 1294757372, 1396182291,
   1695183700, 1986661051, 2177026350, 2456956037, 2730485921, 2820302411,
   3259730800, 3345764771, 3516065817, 3600352804, 4094571909, 275423344,
   430227734, 506948616, 659060556, 883997877, 958139571, 1322822218,
   1537002063, 1747873779, 1955562222, 2024104815, 2227730452, 2361852424,
   2428436474, 2756734187, 3204031479, 3329325298]

/-- SHA-256 initial hash state. -/
def sha256H0 : List Nat :=
  [1779033703, 3144134277, 1013904242, 2773480762, 1359893119, 2600822924, 528734635, 1541459225]

/-- SHA-256 message padding: one 0x80 byte, zeros to 56 modulo 64, then
the bit length as 8 big-endian bytes. -/
def sha256Pad (msg : List Nat) : List Nat :=
  let len := msg.length
  let zeros := (120 - (len + 1) % 64) % 64
  let bitLen := len * 8
  msg ++ [128] ++ List.replicate zeros 0 ++
    [bitLen / 2 ^ 56 % 256, bitLen / 2 ^ 48 % 256, bitLen / 2 ^ 40 % 256, bitLen / 2 ^ 32 % 256,
     bitLen / 2 ^ 24 % 256, bitLen / 2 ^ 16 % 256, bitLen / 2 ^ 8 % 256, bitLen % 256]

/-- Big-endian grouping of bytes into 32-bit words. -/
def bytesToWords : List Nat → List Nat
  | b1 :: b2 :: b3 :: b4 :: rest =>
      (b1 * 16777216 + b2 * 65536 + b3 * 256 + b4) :: bytesToWords rest
  | _ => []

/-- Split a byte sequence into 64-byte blocks. -/
def chunk64 : List Nat → List (List Nat)
  | [] => []
  | b :: rest => ((b :: rest).take 64) :: chunk64 ((b :: rest).drop 64)
termination_by l => l.length
decreasing_by simp [List.length_drop]; omega

/-- Message schedule extension: append n further words to the schedule. -/
def sha256Extend (w : List Nat) : Nat → List Nat
  | 0 => w
  | n + 1 =>
      let i := w.length
      sha256Extend
        (w ++ [wadd (wadd (smallSigma1 (w.getD (i - 2) 0)) (w.getD (i - 7) 0))
          (wadd (smallSigma0 (w.getD (i - 15) 0)) (w.getD (i - 16) 0))]) n

structure Sha256State where
  a : Nat
  b : Nat
  c : Nat
  d : Nat
  e : Nat
  f : Nat
  g : Nat
  h : Nat
deriving DecidableEq, Repr

/-- One SHA-256 compression round with round constant k and schedule
word w. -/
def sha256Round (st : Sha256State) (k w : Nat) : Sha256State :=
  let t1 := wadd (wadd (wadd st.h (bigSigma1 st.e)) (wadd (chWord st.e st.f st.g) k)) w
  let t2 := wadd (bigSigma0 st.a) (majWord st.a st.b st.c)
  ⟨wadd t1 t2, st.a, st.b, st.c, wadd st.d t1, st.e, st.f, st.g⟩

/-- Compression of one block schedule into the running state. -/
def sha256Compress (st : Sha256State) (ws : List Nat) : Sha256State :=
  let fin := (List.zip sha256K ws).foldl (fun s p => sha256Round s p.1 p.2) st
  ⟨wadd st.a fin.a, wadd st.b fin.b, wadd st.c fin.c, wadd st.d fin.d,
   wadd st.e fin.e, wadd st.f fin.f, wadd st.g fin.g, wadd st.h fin.h⟩

/-- Fold the compression over all blocks. -/
def sha256Blocks (st : Sha256State) : List (List Nat) → Sha256State
  | [] => st
  | blk :: rest => sha256Blocks (sha256Compress st (sha256Extend (bytesToWords blk) 48)) rest

def stateOfList : List Nat → Sha256State
  | [a, b, c, d, e, f, g, h] => ⟨a, b, c, d, e, f, g, h⟩
  | _ => ⟨0, 0, 0, 0, 0, 0, 0, 0⟩

/-- Big-endian bytes of one 32-bit word. -/
def wordBytes (w : Nat) : List Nat :=
  [w / 16777216 % 256, w / 65536 % 256, w / 256 % 256, w % 256]

/-- SHA-256 digest of a byte sequence: 32 bytes. -/
def sha256 (msg : List Nat) : List Nat :=
  let st := sha256Blocks (stateOfList sha256H0) (chunk64 (sha256Pad msg))
  wordBytes st.a ++ wordBytes st.b ++ wordBytes st.c ++ wordBytes st.d ++
    wordBytes st.e ++ wordBytes st.f ++ wordBytes st.g ++ wordBytes st.h

/-- HMAC-SHA256 (crypto/hmac with crypto/sha256): block size 64, inner
pad byte 0x36, outer pad byte 0x5c. -/
def hmacSha256 (key msg : List Nat) : List Nat :=
  let k0 := if 64 < key.length then sha256 key else key
  let kPad := k0 ++ List.replicate (64 - k0.length) 0
  sha256 (kPad.map (fun b => b ^^^ 92) ++ sha256 (kPad.map (fun b => b ^^^ 54) ++ msg))

/- ### JSON encoding (encoding/json) for the two fixed struct shapes of
jwt.go. Marshalling reproduces the exact bytes Go emits for valid UTF-8
strings: struct fields in declaration order, string escaping of the
quote, backslash, newline, carriage return and tab bytes, other control
bytes and the three HTML-sensitive bytes as lowercase \u00xx escapes.
Unmarshalling is modelled as a parser of the emitted grammar. -/

/-- Lowercase hexadecimal digit byte. -/
def hexDigitByte (n : Nat) : Nat := if n < 10 then 48 + n else 87 + n

/-- Value of one hexadecimal digit byte. -/
def hexVal (c : Nat) : Option Nat :=
  if 48 ≤ c ∧ c ≤ 57 then some (c - 48)
  else if 97 ≤ c ∧ c ≤ 102 then some (c - 97 + 10)
  else if 65 ≤ c ∧ c ≤ 70 then some (c - 65 + 10)
  else none

/-- Go json string escaping of one byte. -/
def jsonEscapeByte (b : Nat) : List Nat :=
  if b = 34 then [92, 34]
  else if b = 92 then [92, 92]
  else if b = 10 then [92, 110]
  else if b = 13 then [92, 114]
  else if b = 9 then [92, 116]
  else if b < 32 ∨ b = 60 ∨ b = 62 ∨ b = 38 then
    [92, 117, 48, 48, hexDigitByte (b / 16), hexDigitByte (b % 16)]
  else [b]

/-- Constraint of Go utf8 decoding on the second byte of a three-byte
sequence, given the lead byte: 0xE0 forbids overlong encodings, 0xED
forbids surrogates. -/
def utf8Cont3 (b b2 : Nat) : Prop :=
  (b = 224 ∧ 160 ≤ b2 ∧ b2 ≤ 191) ∨ (b = 237 ∧ 128 ≤ b2 ∧ b2 ≤ 159) ∨
    (b ≠ 224 ∧ b ≠ 237 ∧ 128 ≤ b2 ∧ b2 ≤ 191)

instance (b b2 : Nat) : Decidable (utf8Cont3 b b2) := by
  unfold utf8Cont3; infer_instance

/-- Constraint of Go utf8 decoding on the second byte of a four-byte
sequence, given the lead byte: 0xF0 forbids overlong encodings, 0xF4
caps the code point at U+10FFFF. -/
def utf8Cont4 (b b2 : Nat) : Prop :=
  (b = 240 ∧ 144 ≤ b2 ∧ b2 ≤ 191) ∨ (b = 244 ∧ 128 ≤ b2 ∧ b2 ≤ 143) ∨
    (b ≠ 240 ∧ b ≠ 244 ∧ 128 ≤ b2 ∧ b2 ≤ 191)

instance (b b2 : Nat) : Decidable (utf8Cont4 b b2) := by
  unfold utf8Cont4; infer_instance

/-- Go json escaping of one decoded three-byte rune: the line and
paragraph separators U+2028 and U+2029 become \u escapes, every other
rune is copied verbatim. -/
def jsonEscape3 (b b2 b3 : Nat) : List Nat :=
  if (b - 224) * 4096 + (b2 - 128) * 64 + (b3 - 128) = 8232 then ascii "\\u2028"
  else if (b - 224) * 4096 + (b2 - 128) * 64 + (b3 - 128) = 8233 then ascii "\\u2029"
  else [b, b2, b3]

/-- Go json string escaping of a byte sequence (encoding/json
appendString): ASCII bytes through the escape table; well-formed
multi-byte utf8 sequences verbatim, except U+2028 and U+2029 which are
\u-escaped; each byte that does not start a well-formed sequence is
replaced by the six-byte escape text for U+FFFD. -/
def jsonEscape : List Nat → List Nat
  | [] => []
  | [b] => if b < 128 then jsonEscapeByte b else ascii "\\ufffd"
  | [b, b2] =>
    if b < 128 then jsonEscapeByte b ++ jsonEscape [b2]
    else if (194 ≤ b ∧ b ≤ 223) ∧ (128 ≤ b2 ∧ b2 ≤ 191) then [b, b2]
    else ascii "\\ufffd" ++ jsonEscape [b2]
  | [b, b2, b3] =>
    if b < 128 then jsonEscapeByte b ++ jsonEscape [b2, b3]
    else if (194 ≤ b ∧ b ≤ 223) ∧ (128 ≤ b2 ∧ b2 ≤ 191) then b :: b2 :: jsonEscape [b3]
    else if (224 ≤ b ∧ b ≤ 239) ∧ utf8Cont3 b b2 ∧ (128 ≤ b3 ∧ b3 ≤ 191) then
      jsonEscape3 b b2 b3
    else ascii "\\ufffd" ++ jsonEscape [b2, b3]
  | b :: b2 :: b3 :: b4 :: rest =>
    if b < 128 then jsonEscapeByte b ++ jsonEscape (b2 :: b3 :: b4 :: rest)
    else if (194 ≤ b ∧ b ≤ 223) ∧ (128 ≤ b2 ∧ b2 ≤ 191) then
      b :: b2 :: jsonEscape (b3 :: b4 :: rest)
    else if (224 ≤ b ∧ b ≤ 239) ∧ utf8Cont3 b b2 ∧ (128 ≤ b3 ∧ b3 ≤ 191) then
      jsonEscape3 b b2 b3 ++ jsonEscape (b4 :: rest)
    else if (240 ≤ b ∧ b ≤ 244) ∧ utf8Cont4 b b2 ∧ (128 ≤ b3 ∧ b3 ≤ 191) ∧
        (128 ≤ b4 ∧ b4 ≤ 191) then
      b :: b2 :: b3 :: b4 :: jsonEscape rest
    else ascii "\\ufffd" ++ jsonEscape (b2 :: b3 :: b4 :: rest)

/-- Go utf8.ValidString on a byte sequence, with the same sequence
classification as jsonEscape. -/
def utf8Valid : List Nat → Bool
  | [] => true
  | [b] => decide (b < 128)
  | [b, b2] =>
    if b < 128 then utf8Valid [b2]
    else decide ((194 ≤ b ∧ b ≤ 223) ∧ (128 ≤ b2 ∧ b2 ≤ 191))
  | [b, b2, b3] =>
    if b < 128 then utf8Valid [b2, b3]
    else if (194 ≤ b ∧ b ≤ 223) ∧ (128 ≤ b2 ∧ b2 ≤ 191) then utf8Valid [b3]
    else decide ((224 ≤ b ∧ b ≤ 239) ∧ utf8Cont3 b b2 ∧ (128 ≤ b3 ∧ b3 ≤ 191))
  | b :: b2 :: b3 :: b4 :: rest =>
    if b < 128 then utf8Valid (b2 :: b3 :: b4 :: rest)
    else if (194 ≤ b ∧ b ≤ 223) ∧ (128 ≤ b2 ∧ b2 ≤ 191) then
      utf8Valid (b3 :: b4 :: rest)
    else if (224 ≤ b ∧ b ≤ 239) ∧ utf8Cont3 b b2 ∧ (128 ≤ b3 ∧ b3 ≤ 191) then
      utf8Valid (b4 :: rest)
    else if (240 ≤ b ∧ b ≤ 244) ∧ utf8Cont4 b b2 ∧ (128 ≤ b3 ∧ b3 ≤ 191) ∧
        (128 ≤ b4 ∧ b4 ≤ 191) then utf8Valid rest
    else false

/-- Utf8 encoding of one code point recovered from a \u escape: below
0x80 one byte, below 0x800 two bytes, otherwise three bytes; a lone
surrogate code point becomes the replacement rune U+FFFD, as in Go
unquoting (surrogate pairs never occur in marshalled output, so pair
combination is not modelled). -/
def utf8EncodeRune (v : Nat) : List Nat :=
  if v < 128 then [v]
  else if v < 2048 then [192 + v / 64, 128 + v % 64]
  else if 55296 ≤ v ∧ v ≤ 57343 then [239, 191, 189]
  else [224 + v / 4096 % 16, 128 + v / 64 % 64, 128 + v % 64]

/-- Prepend a byte to the parsed content of an unescaping result. -/
def consUn (c : Nat) : Option (List Nat × List Nat) → Option (List Nat × List Nat)
  | some (s, r) => some (c :: s, r)
  | none => none

/-- Prepend a byte sequence to the parsed content of an unescaping
result. -/
def appendUn (bs : List Nat) : Option (List Nat × List Nat) → Option (List Nat × List Nat)
  | some (s, r) => some (bs ++ s, r)
  | none => none

/-- Inverse of json string escaping: reads bytes up to the closing
unescaped quote and returns the unescaped content and the remainder
after the quote. The cases are ordered: closing quote, the five
two-byte escapes, the six-byte \u escape, any other byte after a
backslash (malformed), then a literal byte. -/
def jsonUnescape : List Nat → Option (List Nat × List Nat)
  | [] => none
  | 34 :: rest => some ([], rest)
  | 92 :: 34 :: rest2 => consUn 34 (jsonUnescape rest2)
  | 92 :: 92 :: rest2 => consUn 92 (jsonUnescape rest2)
  | 92 :: 110 :: rest2 => consUn 10 (jsonUnescape rest2)
  | 92 :: 114 :: rest2 => consUn 13 (jsonUnescape rest2)
  | 92 :: 116 :: rest2 => consUn 9 (jsonUnescape rest2)
  | 92 :: 117 :: h1 :: h2 :: h3 :: h4 :: rest3 =>
    (match hexVal h1, hexVal h2, hexVal h3, hexVal h4 with
     | some v1, some v2, some v3, some v4 =>
         appendUn (utf8EncodeRune (v1 * 4096 + v2 * 256 + v3 * 16 + v4))
           (jsonUnescape rest3)
     | _, _, _, _ => none)
  | 92 :: _ => none
  | b :: rest => consUn b (jsonUnescape rest)

/-- Decimal digit bytes of a natural number, most significant first. -/
def toDecBytes (n : Nat) : List Nat :=
  if n < 10 then [48 + n] else toDecBytes (n / 10) ++ [48 + n % 10]
termination_by n
decreasing_by exact Nat.div_lt_self (by omega) (by omega)

/-- Split off the maximal leading run of decimal digit bytes. -/
def takeDigits : List Nat → List Nat × List Nat
  | [] => ([], [])
  | b :: rest =>
    if 48 ≤ b ∧ b ≤ 57 then
      let p := takeDigits rest
      (b :: p.1, p.2)
    else ([], b :: rest)

/-- Numeric value of a run of decimal digit bytes. -/
def digitsToNat (ds : List Nat) : Nat := ds.foldl (fun a d => a * 10 + (d - 48)) 0

/-- Parse a nonempty run of decimal digits into a natural number,
returning the remainder. -/
def parseNatBytes (l : List Nat) : Option (Nat × List Nat) :=
  let p := takeDigits l
  if p.1 = [] then none else some (digitsToNat p.1, p.2)

/-- Match an expected literal byte sequence, returning the remainder. -/
def expectBytes : List Nat → List Nat → Option (List Nat)
  | [], input => some input
  | _ :: _, [] => none
  | l :: ls, i :: is => if l = i then expectBytes ls is else none

/-- Claims of jwt.go (struct jwtClaims): four string fields and the two
timestamp fields, in Go declaration order. Timestamps are Unix seconds
as Nat. -/
structure JwtClaims where
  userId : List Nat
  login : List Nat
  email : List Nat
  githubToken : List Nat
  iat : Nat
  exp : Nat
deriving DecidableEq, Repr

/-- json.Marshal of jwtHeader with Alg HS256 and Typ JWT: a constant
byte sequence. -/
def marshalHeader : List Nat := ascii "\x7b\"alg\":\"HS256\",\"typ\":\"JWT\"\x7d"

/-- json.Marshal of jwtClaims: fields in declaration order with the
json tags of jwt.go lines 22-29. -/
def marshalClaims (c : JwtClaims) : List Nat :=
  ascii "\x7b\"user_id\":\"" ++ jsonEscape c.userId ++
    ascii "\",\"login\":\"" ++ jsonEscape c.login ++
    ascii "\",\"email\":\"" ++ jsonEscape c.email ++
    ascii "\",\"github_token\":\"" ++ jsonEscape c.githubToken ++
    ascii "\",\"iat\":" ++ toDecBytes c.iat ++
    ascii ",\"exp\":" ++ toDecBytes c.exp ++ ascii "\x7d"

/-- json.Unmarshal into jwtHeader, modelled on the grammar json.Marshal
emits: returns the alg and typ strings. -/
def parseHeader (l : List Nat) : Option (List Nat × List Nat) :=
  match expectBytes (ascii "\x7b\"alg\":\"") l with
  | none => none
  | some r1 =>
    match jsonUnescape r1 with
    | none => none
    | some (alg, r2) =>
      match expectBytes (ascii ",\"typ\":\"") r2 with
      | none => none
      | some r3 =>
        match jsonUnescape r3 with
        | none => none
        | some (typ, r4) =>
          if r4 = ascii "\x7d" then some (alg, typ) else none

/-- json.Unmarshal into jwtClaims, modelled on the grammar json.Marshal
emits. -/
def parseClaims (l : List Nat) : Option JwtClaims :=
  match expectBytes (ascii "\x7b\"user_id\":\"") l with
  | none => none
  | some r1 =>
  match jsonUnescape r1 with
  | none => none
  | some (uid, r2) =>
  match expectBytes (ascii ",\"login\":\"") r2 with
  | none => none
  | some r3 =>
  match jsonUnescape r3 with
  | none => none
  | some (login, r4) =>
  match expectBytes (ascii ",\"email\":\"") r4 with
  | none => none
  | some r5 =>
  match jsonUnescape r5 with
  | none => none
  | some (email, r6) =>
  match expectBytes (ascii ",\"github_token\":\"") r6 with
  | none => none
  | some r7 =>
  match jsonUnescape r7 with
  | none => none
  | some (tok, r8) =>
  match expectBytes (ascii ",\"iat\":") r8 with
  | none => none
  | some r9 =>
  match parseNatBytes r9 with
  | none => none
  | some (iat, r10) =>
  match expectBytes (ascii ",\"exp\":") r10 with
  | none => none
  | some r11 =>
  match parseNatBytes r11 with
  | none => none
  | some (exp, r12) =>
  if r12 = ascii "\x7d" then some ⟨uid, login, email, tok, iat, exp⟩ else none

/-- User of the models package as used by jwt.go: ID, Login, Email and
GitHubToken, all Go strings. -/
structure User where
  id : List Nat
  login : List Nat
  email : List Nat
  githubToken : List Nat
deriving DecidableEq, Repr

/-- createSignature (jwt.go lines 140-145): base64url of the
HMAC-SHA256 of the message under the configured secret. -/
def createSignature (secret message : List Nat) : List Nat :=
  base64urlEncode (hmacSha256 secret message)

/-- GenerateJWT (jwt.go lines 32-72): claims carry the user fields with
issue time now and expiry now plus 24 hours; token is
base64url(header) dot base64url(claims) dot signature. -/
def GenerateJWT (secret : List Nat) (user : User) (now : Nat) : List Nat :=
  let headerEncoded := base64urlEncode marshalHeader
  let claims : JwtClaims :=
    ⟨user.id, user.login, user.email, user.githubToken, now, now + 86400⟩
  let claimsEncoded := base64urlEncode (marshalClaims claims)
  let message := headerEncoded ++ [46] ++ claimsEncoded
  message ++ [46] ++ createSignature secret message

/-- strings.Split on a one-byte separator. -/
def stringsSplit (sep : Nat) : List Nat → List (List Nat)
  | [] => [[]]
  | b :: rest =>
    if b = sep then [] :: stringsSplit sep rest
    else
      match stringsSplit sep rest with
      | [] => [[b]]
      | p :: ps => (b :: p) :: ps

/-- ValidateJWT (jwt.go lines 75-137): split on the dot byte into
exactly three parts, compare the signature part with the recomputed
signature of the first two parts, decode and check the header, decode
the claims, reject expired tokens (exp before now) and tokens issued
more than 60 seconds in the future, then return the user carried in the
claims. Failures are collapsed to none. -/
def ValidateJWT (secret : List Nat) (token : List Nat) (now : Nat) : Option User :=
  match stringsSplit 46 token with
  | [headerEncoded, claimsEncoded, signatureEncoded] =>
    let message := headerEncoded ++ [46] ++ claimsEncoded
    if signatureEncoded ≠ createSignature secret message then none
    else
      match base64urlDecode headerEncoded with
      | none => none
      | some headerJSON =>
        match parseHeader headerJSON with
        | none => none
        | some (alg, typ) =>
          if alg ≠ ascii "HS256" ∨ typ ≠ ascii "JWT" then none
          else
            match base64urlDecode claimsEncoded with
            | none => none
            | some claimsJSON =>
              match parseClaims claimsJSON with
              | none => none
              | some claims =>
                if claims.exp < now then none
                else if now + 60 < claims.iat then none
                else some ⟨claims.userId, claims.login, claims.email, claims.githubToken⟩
  | _ => none

/-- Signed portion of the token GenerateJWT builds for a user at issue
time now: encoded header, dot, encoded claims. -/
def jwtSignedMessage (user : User) (now : Nat) : List Nat :=
  base64urlEncode marshalHeader ++ [46] ++
    base64urlEncode (marshalClaims
      ⟨user.id, user.login, user.email, user.githubToken, now, now + 86400⟩)

/-- All four string fields of a user are well-formed utf8 Go strings,
which json.Marshal transmits without coercion to replacement runes. -/
def UserStringsOk (u : User) : Prop :=
  utf8Valid u.id = true ∧ utf8Valid u.login = true ∧
    utf8Valid u.email = true ∧ utf8Valid u.githubToken = true

instance (u : User) : Decidable (UserStringsOk u) := by
  unfold UserStringsOk; infer_instance

/- ### Shared helper lemmas -/

theorem getPullRequests_core (o : FilesOracle) (p : List RawPR) (l : Nat) :
    GetPullRequests o p l =
      ((p.map (fun r => r.core)).take l).map (normalizePullRequest o) := by
  unfold GetPullRequests serveListing
  rw [← List.map_take, List.map_map]
  rfl

theorem getIssues_core (q : List RawIssue) (l : Nat) :
    GetIssues q l =
      (((q.map (fun r => r.core)).take l).filter
        (fun gh => !isPullRequest gh)).map normalizeIssue := by
  unfold GetIssues serveListing
  rw [← List.map_take]

theorem getCommits_core (r : List RawCommit) (l : Nat) :
    GetCommits r l = ((r.map (fun c => c.core)).take l).map normalizeCommit := by
  unfold GetCommits serveListing
  rw [← List.map_take]

theorem forall2_map_self {α β : Type} (f : α → β) (R : α → β → Prop) (l : List α)
    (h : ∀ a ∈ l, R a (f a)) : List.Forall₂ R l (l.map f) := by
  induction l with
  | nil => exact List.Forall₂.nil
  | cons x xs ih =>
      exact List.Forall₂.cons (h x (by simp)) (ih (fun a ha => h a (by simp [ha])))

theorem firstFailureMessage_isSome (prRes : Except GHError (List PullRequest))
    (issueRes : Except GHError (List Issue))
    (commitRes : Except GHError (List Commit))
    (h : failureCount prRes issueRes commitRes ≠ 0) :
    (firstFailureMessage prRes issueRes commitRes).isSome := by
  rcases prRes with e | lp <;> rcases issueRes with e2 | li <;>
    rcases commitRes with e3 | lc <;>
    simp_all [failureCount, firstFailureMessage, Except.isOk, Except.toBool]

/- ### C1 -/

/-- C1: for every credential, owner, repository and limit, the
extraction calls GetPullRequests, GetIssues and GetCommits return at
most limit normalized entities ordered most-recent-first (the output is
the order-preserving normalization of the most-recent-first prefix the
API serves, so any most-recent-first ordering of the listing transfers
to the output); for a repository with more than 50, 50 and 100
available pull requests, issues and commits, extraction at the job
limits yields exactly 50 pull requests, 50 issues and 100 commits. -/
theorem c1_extraction_caps_and_order (o : FilesOracle)
    (aPR : List RawPR) (aIs : List RawIssue) (aCm : List RawCommit)
    (lp li lc : Nat)
    (R : GitHubPullRequest → GitHubPullRequest → Prop)
    (S : PullRequest → PullRequest → Prop)
    (RI : GitHubIssue → GitHubIssue → Prop) (SI : Issue → Issue → Prop)
    (RC : GitHubCommit → GitHubCommit → Prop) (SC : Commit → Commit → Prop) :
    (GetPullRequests o aPR lp).length ≤ lp ∧
    (GetIssues aIs li).length ≤ li ∧
    (GetCommits aCm lc).length ≤ lc ∧
    (prJobLimit < aPR.length →
      (GetPullRequests o aPR prJobLimit).length = prJobLimit) ∧
    (issueJobLimit < aIs.length →
      (GetIssues aIs issueJobLimit).length = issueJobLimit) ∧
    (commitJobLimit < aCm.length →
      (GetCommits aCm commitJobLimit).length = commitJobLimit) ∧
    GetPullRequests o aPR lp =
      (aPR.take lp).map (fun r => normalizePullRequest o r.core) ∧
    ((∀ a b, R a b → S (normalizePullRequest o a) (normalizePullRequest o b)) →
      List.Pairwise R (aPR.map (fun r => r.core)) →
      List.Pairwise S (GetPullRequests o aPR lp)) ∧
    ((∀ a b, RI a b → SI (normalizeIssue a) (normalizeIssue b)) →
      List.Pairwise RI (aIs.map (fun r => r.core)) →
      List.Pairwise SI (GetIssues aIs li)) ∧
    ((∀ a b, RC a b → SC (normalizeCommit a) (normalizeCommit b)) →
      List.Pairwise RC (aCm.map (fun r => r.core)) →
      List.Pairwise SC (GetCommits aCm lc)) := by
  refine ⟨?_, ?_, ?_, ?_, ?_, ?_, ?_, ?_, ?_, ?_⟩
  · simp [getPullRequests_core]
  · have h1 : (GetIssues aIs li).length ≤
        ((aIs.map (fun r => r.core)).take li).length := by
      rw [getIssues_core, List.length_map]
      exact List.length_filter_le _ _
    have h2 : ((aIs.map (fun r => r.core)).take li).length ≤ li := by simp
    exact le_trans h1 h2
  · simp [getCommits_core]
  · intro h
    simp [getPullRequests_core, prJobLimit] at h ⊢
    omega
  · intro h
    rw [getIssues_core]
    have hfl : ((aIs.map (fun r => r.core)).take issueJobLimit).filter
        (fun gh => !isPullRequest gh) =
        (aIs.map (fun r => r.core)).take issueJobLimit := by
      apply List.filter_eq_self.mpr
      intro a _
      simp [isPullRequest]
    rw [hfl]
    simp [issueJobLimit] at h ⊢
    omega
  · intro h
    simp [getCommits_core, commitJobLimit] at h ⊢
    omega
  · simp [GetPullRequests, serveListing]
  · intro hmono hsorted
    rw [getPullRequests_core]
    rw [List.pairwise_map]
    exact ((hsorted.sublist (List.take_sublist _ _)).imp (fun hab => hmono _ _ hab))
  · intro hmono hsorted
    rw [getIssues_core]
    rw [List.pairwise_map]
    exact (((hsorted.sublist (List.take_sublist _ _)).sublist
      (List.filter_sublist _)).imp (fun hab => hmono _ _ hab))
  · intro hmono hsorted
    rw [getCommits_core]
    rw [List.pairwise_map]
    exact ((hsorted.sublist (List.take_sublist _ _)).imp (fun hab => hmono _ _ hab))

/-- Witness for C1 at a concrete input: 51 available pull requests, 51
issues, 101 commits; extraction at the job limits returns exactly 50,
50 and 100 entities and at most 7 for limit 7. -/
theorem c1_witness :
    (GetPullRequests (fun _ => Except.ok [])
      (List.replicate 51 (⟨⟨1, 1, "t", "b", "u", "open", 0, none, []⟩, []⟩ : RawPR))
      prJobLimit).length = prJobLimit ∧
    (GetIssues
      (List.replicate 51 (⟨⟨2, "t", "b", 1, "u", "open", 0, none, []⟩, []⟩ : RawIssue))
      issueJobLimit).length = issueJobLimit ∧
    (GetCommits
      (List.replicate 101 (⟨⟨"s", "m", "a", 0, []⟩, []⟩ : RawCommit))
      commitJobLimit).length = commitJobLimit ∧
    (GetPullRequests (fun _ => Except.ok [])
      (List.replicate 51 (⟨⟨1, 1, "t", "b", "u", "open", 0, none, []⟩, []⟩ : RawPR))
      7).length ≤ 7 := by
  have h := c1_extraction_caps_and_order (fun _ => Except.ok [])
    (List.replicate 51 (⟨⟨1, 1, "t", "b", "u", "open", 0, none, []⟩, []⟩ : RawPR))
    (List.replicate 51 (⟨⟨2, "t", "b", 1, "u", "open", 0, none, []⟩, []⟩ : RawIssue))
    (List.replicate 101 (⟨⟨"s", "m", "a", 0, []⟩, []⟩ : RawCommit))
    7 0 0 (fun _ _ => True) (fun _ _ => True) (fun _ _ => True) (fun _ _ => True)
    (fun _ _ => True) (fun _ _ => True)
  obtain ⟨h1, _, _, h4, h5, h6, _⟩ := h
  exact ⟨h4 (by simp [prJobLimit]), h5 (by simp [issueJobLimit]),
    h6 (by simp [commitJobLimit]), h1⟩

/- ### C9 -/

/-- C9: two-run noninterference over non-allow-listed payload fields:
two upstream payloads whose records agree on the decodable allow-listed
cores produce identical normalized outputs from GetPullRequests,
GetIssues and GetCommits, so extra unknown fields never surface. -/
theorem c9_noninterference (o : FilesOracle)
    (p1 p2 : List RawPR) (q1 q2 : List RawIssue) (r1 r2 : List RawCommit)
    (l1 l2 l3 : Nat) :
    (p1.map (fun r => r.core) = p2.map (fun r => r.core) →
      GetPullRequests o p1 l1 = GetPullRequests o p2 l1) ∧
    (q1.map (fun r => r.core) = q2.map (fun r => r.core) →
      GetIssues q1 l2 = GetIssues q2 l2) ∧
    (r1.map (fun r => r.core) = r2.map (fun r => r.core) →
      GetCommits r1 l3 = GetCommits r2 l3) := by
  refine ⟨fun h => ?_, fun h => ?_, fun h => ?_⟩
  · rw [getPullRequests_core, getPullRequests_core, h]
  · rw [getIssues_core, getIssues_core, h]
  · rw [getCommits_core, getCommits_core, h]

/-- Witness for C9: a payload record carrying an extra unknown field
produces the same normalized output as the same record without it. -/
theorem c9_witness :
    GetPullRequests (fun _ => Except.ok [])
      [⟨⟨1, 1, "t", "b", "u", "open", 0, none, []⟩, [("extra_field", "ignored")]⟩] 10 =
    GetPullRequests (fun _ => Except.ok [])
      [⟨⟨1, 1, "t", "b", "u", "open", 0, none, []⟩, []⟩] 10 :=
  (c9_noninterference (fun _ => Except.ok [])
    [⟨⟨1, 1, "t", "b", "u", "open", 0, none, []⟩, [("extra_field", "ignored")]⟩]
    [⟨⟨1, 1, "t", "b", "u", "open", 0, none, []⟩, []⟩]
    [] [] [] [] 10 0 0).1 (by decide)

/- ### C8 -/

/-- C8: a failure of the secondary per-pull-request files request is
non-fatal: the batch is never shortened, the failed pull request alone
degrades to an empty changed-file list, a successful files request is
returned as is, and pull requests whose files request is unchanged are
normalized identically under any two oracles. -/
theorem c8_files_failure_nonfatal (o o2 : FilesOracle) (aPR : List RawPR)
    (lim : Nat) (e : GHError) :
    (GetPullRequests o aPR lim).length = (serveListing aPR lim).length ∧
    GetPullRequests o aPR lim =
      (aPR.take lim).map (fun r => normalizePullRequest o r.core) ∧
    (∀ gh : GitHubPullRequest, o gh.number = Except.error e →
      (normalizePullRequest o gh).filesChanged = []) ∧
    (∀ gh : GitHubPullRequest, ∀ fs, o gh.number = Except.ok fs →
      (normalizePullRequest o gh).filesChanged = fs) ∧
    (∀ gh : GitHubPullRequest, o gh.number = o2 gh.number →
      normalizePullRequest o gh = normalizePullRequest o2 gh) := by
  refine ⟨?_, ?_, ?_, ?_, ?_⟩
  · simp [GetPullRequests]
  · simp [GetPullRequests, serveListing]
  · intro gh h
    simp [normalizePullRequest, h]
  · intro gh fs h
    simp [normalizePullRequest, h]
  · intro gh h
    simp [normalizePullRequest, h]

/-- Witness for C8: with an oracle failing only for pull request number
2, a two-element batch keeps both entries: the failed one with an empty
file list, the other with its files intact. -/
theorem c8_witness :
    (GetPullRequests
      (fun n => if n = 2 then Except.error (GHError.netDo "boom")
                else Except.ok ["main.go"])
      [⟨⟨1, 1, "t1", "", "u", "open", 0, none, []⟩, []⟩,
       ⟨⟨2, 2, "t2", "", "u", "open", 0, none, []⟩, []⟩] 10).length = 2 ∧
    (normalizePullRequest
      (fun n => if n = 2 then Except.error (GHError.netDo "boom")
                else Except.ok ["main.go"])
      ⟨2, 2, "t2", "", "u", "open", 0, none, []⟩).filesChanged = [] ∧
    (normalizePullRequest
      (fun n => if n = 2 then Except.error (GHError.netDo "boom")
                else Except.ok ["main.go"])
      ⟨1, 1, "t1", "", "u", "open", 0, none, []⟩).filesChanged = ["main.go"] := by
  have h := c8_files_failure_nonfatal
    (fun n => if n = 2 then Except.error (GHError.netDo "boom")
              else Except.ok ["main.go"])
    (fun _ => Except.ok [])
    [⟨⟨1, 1, "t1", "", "u", "open", 0, none, []⟩, []⟩,
     ⟨⟨2, 2, "t2", "", "u", "open", 0, none, []⟩, []⟩]
    10 (GHError.netDo "boom")
  obtain ⟨h1, _, h3, h4, _⟩ := h
  refine ⟨by simpa [serveListing] using h1, ?_, ?_⟩
  · exact h3 ⟨2, 2, "t2", "", "u", "open", 0, none, []⟩ rfl
  · exact h4 ⟨1, 1, "t1", "", "u", "open", 0, none, []⟩ ["main.go"] rfl

/- ### C5 -/

/-- C5: evaluation of GetIssues at the failing input: an issue listing
whose single record is identified as a pull request by its linkage
field still surfaces in the output, because isPullRequest is the
constant false; the claim that such records are excluded is contradicted
by the code. -/
theorem c5_pr_masquerading_surfaces :
    GetIssues
      [⟨⟨7, "pr shaped", "", 3, "alice", "open", 0, none, []⟩,
        [("pull_request", "linked")]⟩] 50 =
      [⟨7, 0, "pr shaped", "", "alice", "open", 0, none, []⟩] ∧
    isPullRequest ⟨7, "pr shaped", "", 3, "alice", "open", 0, none, []⟩ = false := by
  constructor
  · rfl
  · rfl

/- ### C6 -/

/-- C6 counterexample: for commits the claim fails on the code. The
commits upsert overwrites the stored creation timestamp: re-upserting
the commit with hash abc and stored created_at 5 under a record with
created_at 9 leaves 9 in the table, not 5. -/
theorem c6_counterexample :
    (CreateCommit [⟨"abc", 1, "m0", "a0", 5, []⟩]
      ⟨"abc", 1, "m1", "a1", 9, ["f"]⟩).map (fun r => r.createdAt) = [9] ∧
    ((CreateCommit [⟨"abc", 1, "m0", "a0", 5, []⟩]
      ⟨"abc", 1, "m1", "a1", 9, ["f"]⟩).map (fun r => r.createdAt) ≠ [5]) := by
  refine ⟨rfl, ?_⟩
  intro h
  simp [CreateCommit] at h

/-- C6 amended: upsert with an absent natural key inserts; with a
present key, pull-request and issue upserts overwrite exactly the
mutable field set and leave identity, author, creation timestamp and
the other rows untouched, while the commit upsert overwrites message,
author, files and also the stored creation timestamp, leaving only the
hash identity and repository id untouched. -/
theorem c6_amended (tp : List PullRequest) (pr : PullRequest)
    (ti : List Issue) (iss : Issue) (tc : List Commit) (cm : Commit) :
    ((tp.any (fun r => prKeyMatches r pr)) = false →
      CreatePullRequest tp pr = tp ++ [pr]) ∧
    ((tp.any (fun r => prKeyMatches r pr)) = true →
      List.Forall₂ (fun old new =>
        (prKeyMatches old pr = false → new = old) ∧
        (prKeyMatches old pr = true →
          new.id = old.id ∧ new.createdAt = old.createdAt ∧
          new.repoId = old.repoId ∧ new.number = old.number ∧
          new.author = old.author ∧
          new.title = pr.title ∧ new.body = pr.body ∧ new.state = pr.state ∧
          new.mergedAt = pr.mergedAt ∧ new.filesChanged = pr.filesChanged ∧
          new.labels = pr.labels))
        tp (CreatePullRequest tp pr)) ∧
    ((ti.any (fun r => r.id == iss.id)) = false → CreateIssue ti iss = ti ++ [iss]) ∧
    ((ti.any (fun r => r.id == iss.id)) = true →
      List.Forall₂ (fun old new =>
        ((old.id == iss.id) = false → new = old) ∧
        ((old.id == iss.id) = true →
          new.id = old.id ∧ new.createdAt = old.createdAt ∧
          new.repoId = old.repoId ∧ new.author = old.author ∧
          new.title = iss.title ∧ new.body = iss.body ∧ new.state = iss.state ∧
          new.closedAt = iss.closedAt ∧ new.labels = iss.labels))
        ti (CreateIssue ti iss)) ∧
    ((tc.any (fun r => r.sha == cm.sha)) = false → CreateCommit tc cm = tc ++ [cm]) ∧
    ((tc.any (fun r => r.sha == cm.sha)) = true →
      List.Forall₂ (fun old new =>
        ((old.sha == cm.sha) = false → new = old) ∧
        ((old.sha == cm.sha) = true →
          new.sha = old.sha ∧ new.repoId = old.repoId ∧
          new.message = cm.message ∧ new.author = cm.author ∧
          new.createdAt = cm.createdAt ∧ new.filesChanged = cm.filesChanged))
        tc (CreateCommit tc cm)) := by
  refine ⟨fun h => ?_, fun h => ?_, fun h => ?_, fun h => ?_, fun h => ?_, fun h => ?_⟩
  · simp [CreatePullRequest, h]
  · rw [CreatePullRequest, if_pos h]
    apply forall2_map_self
    intro a _
    by_cases hk : prKeyMatches a pr = true
    · simp [hk]
    · simp at hk
      simp [hk]
  · simp [CreateIssue, h]
  · rw [CreateIssue, if_pos h]
    apply forall2_map_self
    intro a _
    by_cases hk : (a.id == iss.id) = true
    · simp [hk]
    · simp at hk
      simp [hk]
  · simp [CreateCommit, h]
  · rw [CreateCommit, if_pos h]
    apply forall2_map_self
    intro a _
    by_cases hk : (a.sha == cm.sha) = true
    · simp [hk]
    · simp at hk
      simp [hk]

/-- Witness for C6 amended at concrete inputs: inserting into an empty
pull-request table appends, and re-upserting an existing pull request
keeps id and created_at while taking the new title. -/
theorem c6_witness :
    CreatePullRequest [] ⟨10, 1, 4, "t", "b", "u", "open", 3, none, [], []⟩ =
      [⟨10, 1, 4, "t", "b", "u", "open", 3, none, [], []⟩] ∧
    List.Forall₂ (fun (old new : PullRequest) =>
        (prKeyMatches old ⟨99, 1, 4, "t2", "b2", "u2", "merged", 8, some 9, ["f"], ["l"]⟩ = false →
          new = old) ∧
        (prKeyMatches old ⟨99, 1, 4, "t2", "b2", "u2", "merged", 8, some 9, ["f"], ["l"]⟩ = true →
          new.id = old.id ∧ new.createdAt = old.createdAt ∧
          new.repoId = old.repoId ∧ new.number = old.number ∧
          new.author = old.author ∧
          new.title = "t2" ∧ new.body = "b2" ∧ new.state = "merged" ∧
          new.mergedAt = some 9 ∧ new.filesChanged = ["f"] ∧ new.labels = ["l"]))
      [⟨10, 1, 4, "t", "b", "u", "open", 3, none, [], []⟩]
      (CreatePullRequest [⟨10, 1, 4, "t", "b", "u", "open", 3, none, [], []⟩]
        ⟨99, 1, 4, "t2", "b2", "u2", "merged", 8, some 9, ["f"], ["l"]⟩) := by
  have h := c6_amended [] ⟨10, 1, 4, "t", "b", "u", "open", 3, none, [], []⟩
    [] ⟨1, 1, "t", "b", "u", "open", 0, none, []⟩
    [] ⟨"s", 1, "m", "a", 0, []⟩
  have h2 := c6_amended [⟨10, 1, 4, "t", "b", "u", "open", 3, none, [], []⟩]
    ⟨99, 1, 4, "t2", "b2", "u2", "merged", 8, some 9, ["f"], ["l"]⟩
    [] ⟨1, 1, "t", "b", "u", "open", 0, none, []⟩
    [] ⟨"s", 1, "m", "a", 0, []⟩
  exact ⟨h.1 (by decide), h2.2.1 (by decide)⟩

/- ### C7 -/

/-- C7: UpdateJobStatus with status running writes only status and
started_at, leaving finished_at and the error message untouched; with a
terminal status it writes only status, finished_at and the error
message, leaving started_at untouched; and for the orchestrator outcome
the stored error text is present exactly when the terminal state is not
completed. -/
theorem c7_job_transition_frames (job : IngestionJob) (msg : Option String)
    (now : Int) (st : JobStatus)
    (hterm : st = JobStatus.completed ∨ st = JobStatus.partialSuccess ∨
      st = JobStatus.failed)
    (prRes : Except GHError (List PullRequest))
    (issueRes : Except GHError (List Issue))
    (commitRes : Except GHError (List Commit)) :
    (UpdateJobStatus job JobStatus.running msg now).status = JobStatus.running ∧
    (UpdateJobStatus job JobStatus.running msg now).startedAt = some now ∧
    (UpdateJobStatus job JobStatus.running msg now).finishedAt = job.finishedAt ∧
    (UpdateJobStatus job JobStatus.running msg now).errorMsg = job.errorMsg ∧
    (UpdateJobStatus job JobStatus.running msg now).id = job.id ∧
    (UpdateJobStatus job JobStatus.running msg now).repoId = job.repoId ∧
    (UpdateJobStatus job st msg now).status = st ∧
    (UpdateJobStatus job st msg now).finishedAt = some now ∧
    (UpdateJobStatus job st msg now).errorMsg = msg ∧
    (UpdateJobStatus job st msg now).startedAt = job.startedAt ∧
    (UpdateJobStatus job st msg now).id = job.id ∧
    (UpdateJobStatus job st msg now).repoId = job.repoId ∧
    ((ProcessJob prRes issueRes commitRes).status ≠ JobStatus.running ∧
      (ProcessJob prRes issueRes commitRes).status ≠ JobStatus.pending) ∧
    (((ProcessJob prRes issueRes commitRes).errorMsg).isSome ↔
      (ProcessJob prRes issueRes commitRes).status ≠ JobStatus.completed) ∧
    (((UpdateJobStatus job (ProcessJob prRes issueRes commitRes).status
        (ProcessJob prRes issueRes commitRes).errorMsg now).errorMsg).isSome ↔
      (ProcessJob prRes issueRes commitRes).status ≠ JobStatus.completed) := by
  have hne : st ≠ JobStatus.running := by
    rcases hterm with h | h | h <;> simp [h]
  have hframe : ∀ s : JobStatus, s ≠ JobStatus.running →
      (UpdateJobStatus job s msg now).status = s ∧
      (UpdateJobStatus job s msg now).finishedAt = some now ∧
      (UpdateJobStatus job s msg now).errorMsg = msg ∧
      (UpdateJobStatus job s msg now).startedAt = job.startedAt ∧
      (UpdateJobStatus job s msg now).id = job.id ∧
      (UpdateJobStatus job s msg now).repoId = job.repoId := by
    intro s hs
    simp [UpdateJobStatus, hs]
  have hnr : (ProcessJob prRes issueRes commitRes).status ≠ JobStatus.running ∧
      (ProcessJob prRes issueRes commitRes).status ≠ JobStatus.pending := by
    unfold ProcessJob
    constructor <;> (dsimp only; split; · simp_all
                     · split <;> simp_all)
  have hiff : ((ProcessJob prRes issueRes commitRes).errorMsg).isSome ↔
      (ProcessJob prRes issueRes commitRes).status ≠ JobStatus.completed := by
    unfold ProcessJob
    dsimp only
    by_cases h0 : failureCount prRes issueRes commitRes = 0
    · simp [h0]
    · rw [if_neg h0, if_neg h0]
      constructor
      · intro _
        split <;> simp
      · intro _
        exact firstFailureMessage_isSome prRes issueRes commitRes h0
  obtain ⟨f1, f2, f3, f4, f5, f6⟩ := hframe st hne
  refine ⟨?_, ?_, ?_, ?_, ?_, ?_, f1, f2, f3, f4, f5, f6, hnr, hiff, ?_⟩
  · simp [UpdateJobStatus]
  · simp [UpdateJobStatus]
  · simp [UpdateJobStatus]
  · simp [UpdateJobStatus]
  · simp [UpdateJobStatus]
  · simp [UpdateJobStatus]
  · have hrw : (UpdateJobStatus job (ProcessJob prRes issueRes commitRes).status
        (ProcessJob prRes issueRes commitRes).errorMsg now).errorMsg =
        (ProcessJob prRes issueRes commitRes).errorMsg := by
      simp [UpdateJobStatus, hnr.1]
    rw [hrw]
    exact hiff

/-- Witness for C7 at a concrete job and a concrete outcome: the
terminal update after a failed issue extraction stores an error message
and does not touch started_at. -/
theorem c7_witness :
    (UpdateJobStatus ⟨1, 2, JobStatus.running, some 5, none, none⟩
      JobStatus.running none 5).startedAt = some 5 ∧
    (UpdateJobStatus ⟨1, 2, JobStatus.running, some 5, none, none⟩
      JobStatus.partialSuccess (some "e") 9).startedAt = some 5 ∧
    (UpdateJobStatus ⟨1, 2, JobStatus.running, some 5, none, none⟩
      JobStatus.partialSuccess (some "e") 9).finishedAt = some 9 ∧
    (((ProcessJob (Except.ok [])
        (Except.error (GHError.rateLimitExceeded "r")) (Except.ok [])).errorMsg).isSome ↔
      (ProcessJob (Except.ok [])
        (Except.error (GHError.rateLimitExceeded "r")) (Except.ok [])).status ≠
        JobStatus.completed) := by
  have h := c7_job_transition_frames ⟨1, 2, JobStatus.running, some 5, none, none⟩
    (some "e") 9 JobStatus.partialSuccess (Or.inr (Or.inl rfl))
    (Except.ok []) (Except.error (GHError.rateLimitExceeded "r")) (Except.ok [])
  have h5 := c7_job_transition_frames ⟨1, 2, JobStatus.running, some 5, none, none⟩
    none 5 JobStatus.completed (Or.inl rfl)
    (Except.ok []) (Except.error (GHError.rateLimitExceeded "r")) (Except.ok [])
  refine ⟨?_, ?_, ?_, ?_⟩
  · exact h5.2.2.2.2.2.2.2.2.2.1
  · exact h.2.2.2.2.2.2.2.2.2.1
  · exact h.2.2.2.2.2.2.2.1
  · exact h.2.2.2.2.2.2.2.2.2.2.2.2.2.1

/- ### C2 -/

/-- C2: terminal classification of a job execution that reached
running: zero per-kind failures give completed; one or two failures
with at least one success give partial; three failures give failed;
when the terminal state is not completed the persisted error text is
the message of the first failure in pull-request, issue, commit order;
a rate-limit failure that is the only failure yields partial; each
kind persists its extracted batch on success and nothing on failure,
and the persisted batch of one kind does not depend on the results of
the other kinds. -/
theorem c2_terminal_classification (prRes : Except GHError (List PullRequest))
    (issueRes : Except GHError (List Issue))
    (commitRes : Except GHError (List Commit)) :
    (failureCount prRes issueRes commitRes = 0 →
      (ProcessJob prRes issueRes commitRes).status = JobStatus.completed) ∧
    (1 ≤ failureCount prRes issueRes commitRes →
      failureCount prRes issueRes commitRes ≤ 2 →
      (ProcessJob prRes issueRes commitRes).status = JobStatus.partialSuccess) ∧
    (failureCount prRes issueRes commitRes = 3 →
      (ProcessJob prRes issueRes commitRes).status = JobStatus.failed) ∧
    ((ProcessJob prRes issueRes commitRes).status ≠ JobStatus.completed →
      (ProcessJob prRes issueRes commitRes).errorMsg =
        firstFailureMessage prRes issueRes commitRes ∧
      ((ProcessJob prRes issueRes commitRes).errorMsg).isSome) ∧
    (∀ e : GHError, isRateLimitError e = true →
      failureCount prRes issueRes commitRes = 1 →
      (prRes = Except.error e ∨ issueRes = Except.error e ∨
        commitRes = Except.error e) →
      (ProcessJob prRes issueRes commitRes).status = JobStatus.partialSuccess) ∧
    (∀ l, prRes = Except.ok l → (ProcessJob prRes issueRes commitRes).persistedPRs = l) ∧
    (∀ e, prRes = Except.error e →
      (ProcessJob prRes issueRes commitRes).persistedPRs = []) ∧
    (∀ l, issueRes = Except.ok l →
      (ProcessJob prRes issueRes commitRes).persistedIssues = l) ∧
    (∀ e, issueRes = Except.error e →
      (ProcessJob prRes issueRes commitRes).persistedIssues = []) ∧
    (∀ l, commitRes = Except.ok l →
      (ProcessJob prRes issueRes commitRes).persistedCommits = l) ∧
    (∀ e, commitRes = Except.error e →
      (ProcessJob prRes issueRes commitRes).persistedCommits = []) ∧
    (∀ issueRes2 commitRes2,
      (ProcessJob prRes issueRes2 commitRes2).persistedPRs =
        (ProcessJob prRes issueRes commitRes).persistedPRs) ∧
    (∀ prRes2 commitRes2,
      (ProcessJob prRes2 issueRes commitRes2).persistedIssues =
        (ProcessJob prRes issueRes commitRes).persistedIssues) ∧
    (∀ prRes2 issueRes2,
      (ProcessJob prRes2 issueRes2 commitRes).persistedCommits =
        (ProcessJob prRes issueRes commitRes).persistedCommits) := by
  have hcount : failureCount prRes issueRes commitRes ≤ 3 := by
    unfold failureCount
    split <;> split <;> split <;> simp
  refine ⟨fun h0 => ?_, fun h1 h2 => ?_, fun h3 => ?_, fun hnc => ?_,
    fun e hrl h1 hor => ?_, fun l hl => ?_, fun e he => ?_, fun l hl => ?_,
    fun e he => ?_, fun l hl => ?_, fun e he => ?_, fun a b => ?_,
    fun a b => ?_, fun a b => ?_⟩
  · simp [ProcessJob, h0]
  · unfold ProcessJob
    dsimp only
    rw [if_neg (by omega), if_neg (by omega)]
  · simp [ProcessJob, h3]
  · have h0 : failureCount prRes issueRes commitRes ≠ 0 := by
      intro h
      exact hnc (by simp [ProcessJob, h])
    refine ⟨by simp [ProcessJob, h0], ?_⟩
    have := firstFailureMessage_isSome prRes issueRes commitRes h0
    simp [ProcessJob, h0]
    exact this
  · unfold ProcessJob
    dsimp only
    rw [if_neg (by omega), if_neg (by omega)]
  · simp [ProcessJob, hl]
  · simp [ProcessJob, he]
  · simp [ProcessJob, hl]
  · simp [ProcessJob, he]
  · simp [ProcessJob, hl]
  · simp [ProcessJob, he]
  · simp [ProcessJob]
  · simp [ProcessJob]
  · simp [ProcessJob]

/-- Witness for C2 at the scenario of the spec: 10 pull requests, a
rate-limited issue fetch, 5 commits. The job ends partial, the error
text is the rate-limit message, and the persisted batches are the 10
pull requests, no issues and the 5 commits. -/
theorem c2_witness :
    (ProcessJob
      (Except.ok (List.replicate 10 ⟨1, 0, 1, "t", "b", "u", "open", 0, none, [], []⟩))
      (Except.error (GHError.rateLimitExceeded "1717000000"))
      (Except.ok (List.replicate 5 ⟨"s", 0, "m", "a", 0, []⟩))).status =
        JobStatus.partialSuccess ∧
    (ProcessJob
      (Except.ok (List.replicate 10 ⟨1, 0, 1, "t", "b", "u", "open", 0, none, [], []⟩))
      (Except.error (GHError.rateLimitExceeded "1717000000"))
      (Except.ok (List.replicate 5 ⟨"s", 0, "m", "a", 0, []⟩))).errorMsg =
        some "GitHub API rate limit exceeded, resets at 1717000000" ∧
    ((ProcessJob
      (Except.ok (List.replicate 10 ⟨1, 0, 1, "t", "b", "u", "open", 0, none, [], []⟩))
      (Except.error (GHError.rateLimitExceeded "1717000000"))
      (Except.ok (List.replicate 5 ⟨"s", 0, "m", "a", 0, []⟩))).persistedPRs).length = 10 ∧
    (ProcessJob
      (Except.ok (List.replicate 10 ⟨1, 0, 1, "t", "b", "u", "open", 0, none, [], []⟩))
      (Except.error (GHError.rateLimitExceeded "1717000000"))
      (Except.ok (List.replicate 5 ⟨"s", 0, "m", "a", 0, []⟩))).persistedIssues = [] ∧
    ((ProcessJob
      (Except.ok (List.replicate 10 ⟨1, 0, 1, "t", "b", "u", "open", 0, none, [], []⟩))
      (Except.error (GHError.rateLimitExceeded "1717000000"))
      (Except.ok (List.replicate 5 ⟨"s", 0, "m", "a", 0, []⟩))).persistedCommits).length = 5 := by
  have h := c2_terminal_classification
    (Except.ok (List.replicate 10 ⟨1, 0, 1, "t", "b", "u", "open", 0, none, [], []⟩))
    (Except.error (GHError.rateLimitExceeded "1717000000"))
    (Except.ok (List.replicate 5 ⟨"s", 0, "m", "a", 0, []⟩))
  obtain ⟨-, -, -, h4, h5, h6, -, -, h9, h10, -, -⟩ := h
  refine ⟨?_, ?_, ?_, ?_, ?_⟩
  · exact h5 (GHError.rateLimitExceeded "1717000000") rfl (by decide)
      (Or.inr (Or.inl rfl))
  · have hst : (ProcessJob
        (Except.ok (List.replicate 10 ⟨1, 0, 1, "t", "b", "u", "open", 0, none, [], []⟩))
        (Except.error (GHError.rateLimitExceeded "1717000000"))
        (Except.ok (List.replicate 5 ⟨"s", 0, "m", "a", 0, []⟩))).status ≠
        JobStatus.completed := by
      rw [h5 (GHError.rateLimitExceeded "1717000000") rfl (by decide)
        (Or.inr (Or.inl rfl))]
      simp
    rw [(h4 hst).1]
    rfl
  · rw [h6 _ rfl]
    simp
  · exact h9 (GHError.rateLimitExceeded "1717000000") rfl
  · rw [h10 _ rfl]
    simp

/- ### C3 -/

theorem renderGHError_rateLimit_ne_status (reset : String) (code : Nat) :
    renderGHError (GHError.rateLimitExceeded reset) ≠
      renderGHError (GHError.requestFailedStatus code) := by
  intro h
  simp only [renderGHError] at h
  have hd := congrArg String.data h
  rw [String.data_append, String.data_append] at hd
  have h12 := congrArg (fun l => l[12]?) hd
  simp only at h12
  rw [List.getElem?_append_left (by decide), List.getElem?_append_left (by decide)] at h12
  exact absurd h12 (by decide)

/-- C3 counterexample: a 4xx response that is not a 403 but reports an
exhausted rate limit (status 429, X-RateLimit-Remaining 0) does not
produce the rate-limit error carrying the reset time: the call fails
with the generic status error, contradicting the claim quantified over
every 4xx status. -/
theorem c3_counterexample :
    (makeRequestWithRetry
      (fun _ => HttpAttempt.response 429 "0" "1717000000" (some ()))).result =
      Except.error (GHError.requestFailedStatus 429) ∧
    (makeRequestWithRetry
      (fun _ => HttpAttempt.response 429 "0" "1717000000" (some ()))).result ≠
      Except.error (GHError.rateLimitExceeded "1717000000") ∧
    renderGHError (GHError.requestFailedStatus 429) ≠
      renderGHError (GHError.rateLimitExceeded "1717000000") := by
  refine ⟨rfl, ?_, ?_⟩
  · intro h
    simp [makeRequestWithRetry, retryStep] at h
  · exact fun h => renderGHError_rateLimit_ne_status "1717000000" 429 h.symm

/-- C3 amended: for a 403 response whose X-RateLimit-Remaining header
equals 0, the request fails immediately on the first attempt, with no
retry and no backoff, with the rate-limit error carrying the reported
reset time; that error is a distinct error kind, with a distinct
message, from the generic status error produced for other 4xx
responses. -/
theorem c3_amended {β : Type} (server : Nat → HttpAttempt β)
    (reset : String) (body : Option β) (code : Nat)
    (h403 : server 0 = HttpAttempt.response 403 "0" reset body) :
    (makeRequestWithRetry server).result =
      Except.error (GHError.rateLimitExceeded reset) ∧
    (makeRequestWithRetry server).attemptsMade = 1 ∧
    (makeRequestWithRetry server).backoffs = [] ∧
    GHError.rateLimitExceeded reset ≠ GHError.requestFailedStatus code ∧
    renderGHError (GHError.rateLimitExceeded reset) ≠
      renderGHError (GHError.requestFailedStatus code) := by
  have hstep : retryStep 0 (server 0) =
      Sum.inr (Except.error (GHError.rateLimitExceeded reset)) := by
    rw [h403]
    simp [retryStep]
  refine ⟨?_, ?_, ?_, by simp, renderGHError_rateLimit_ne_status reset code⟩ <;>
    simp [makeRequestWithRetry, hstep]

/-- Witness for C3 amended at a concrete 403 rate-limited response. -/
theorem c3_witness :
    (makeRequestWithRetry
      (fun _ => HttpAttempt.response 403 "0" "1717000000" (some ()))).result =
      Except.error (GHError.rateLimitExceeded "1717000000") ∧
    (makeRequestWithRetry
      (fun _ => HttpAttempt.response 403 "0" "1717000000" (some ()))).attemptsMade = 1 := by
  have h := c3_amended (fun _ => HttpAttempt.response 403 "0" "1717000000" (some ()))
    "1717000000" (some ()) 400 rfl
  exact ⟨h.1, h.2.1⟩

/- ### C4 -/

/-- C4: retry policy of the extraction client. At most two HTTP
attempts are ever made; a connection error or a 5xx response on the
first attempt causes exactly one retry after the fixed backoff, with
the 5xx backoff longer than the network backoff; a failure on the
second attempt is fatal and propagates without further retries; and a
request that fails once and then succeeds returns the same result as
one that succeeded immediately. -/
theorem c4_retry_policy {β : Type} (server : Nat → HttpAttempt β)
    (m m2 rem reset rem2 reset2 : String) (s s2 : Nat) (b : β)
    (body0 body1 : Option β) :
    (makeRequestWithRetry server).attemptsMade ≤ 2 ∧
    (server 0 = HttpAttempt.netError m →
      server 1 = HttpAttempt.response s2 rem2 reset2 (some b) → s2 < 400 →
      makeRequestWithRetry server = ⟨Except.ok b, 2, [netErrorBackoff]⟩) ∧
    (server 0 = HttpAttempt.response s rem reset body0 → 500 ≤ s →
      server 1 = HttpAttempt.response s2 rem2 reset2 (some b) → s2 < 400 →
      makeRequestWithRetry server = ⟨Except.ok b, 2, [serverErrorBackoff]⟩) ∧
    netErrorBackoff < serverErrorBackoff ∧
    (server 0 = HttpAttempt.netError m → server 1 = HttpAttempt.netError m2 →
      makeRequestWithRetry server =
        ⟨Except.error (GHError.httpFailedAfterRetry m2), 2, [netErrorBackoff]⟩) ∧
    (server 0 = HttpAttempt.response s rem reset body0 → 500 ≤ s →
      server 1 = HttpAttempt.response s2 rem2 reset2 body1 → 500 ≤ s2 →
      makeRequestWithRetry server =
        ⟨Except.error (GHError.requestFailedStatus s2), 2, [serverErrorBackoff]⟩) ∧
    (server 0 = HttpAttempt.netError m →
      server 1 = HttpAttempt.response s2 rem2 reset2 (some b) → s2 < 400 →
      (makeRequestWithRetry server).result =
        (makeRequestWithRetry (fun _ => server 1)).result) := by
  have hsucc : s2 < 400 → ∀ n, retryStep n (HttpAttempt.response s2 rem2 reset2 (some b)) =
      Sum.inr (Except.ok b) := by
    intro hlt n
    simp only [retryStep]
    rw [if_neg (show ¬(s2 = 403 ∧ rem2 = "0") by rintro ⟨h1, -⟩; omega)]
    rw [if_neg (show ¬(400 ≤ s2) by omega)]
  have hnet0 : retryStep (β := β) 0 (HttpAttempt.netError m) =
      Sum.inl (GHError.netDo m, netErrorBackoff) := by
    simp [retryStep]
  have h5xx0 : 500 ≤ s → retryStep 0 (HttpAttempt.response s rem reset body0) =
      Sum.inl (GHError.requestFailedStatus s, serverErrorBackoff) := by
    intro hs
    simp only [retryStep]
    rw [if_neg (show ¬(s = 403 ∧ rem = "0") by rintro ⟨h1, -⟩; omega)]
    rw [if_pos (show 400 ≤ s by omega)]
    rw [if_pos (show True ∧ 500 ≤ s from ⟨trivial, hs⟩)]
  have h5xx1 : 500 ≤ s2 → retryStep 1 (HttpAttempt.response s2 rem2 reset2 body1) =
      Sum.inr (Except.error (GHError.requestFailedStatus s2)) := by
    intro hs2
    simp only [retryStep]
    rw [if_neg (show ¬(s2 = 403 ∧ rem2 = "0") by rintro ⟨h1, -⟩; omega)]
    rw [if_pos (show 400 ≤ s2 by omega)]
    rw [if_neg (show ¬(1 = 0 ∧ 500 ≤ s2) by rintro ⟨h1, -⟩; omega)]
  refine ⟨?_, fun h0 h1 hlt => ?_, fun h0 hs h1 hlt => ?_, by decide,
    fun h0 h1 => ?_, fun h0 hs h1 hs2 => ?_, fun h0 h1 hlt => ?_⟩
  · unfold makeRequestWithRetry
    rcases retryStep 0 (server 0) with p | r
    · rcases retryStep 1 (server 1) with p2 | r2 <;> simp
    · simp
  · unfold makeRequestWithRetry
    rw [h0, h1, hnet0, hsucc hlt 1]
  · unfold makeRequestWithRetry
    rw [h0, h1, h5xx0 hs, hsucc hlt 1]
  · unfold makeRequestWithRetry
    rw [h0, h1, hnet0]
    simp [retryStep]
  · unfold makeRequestWithRetry
    rw [h0, h1, h5xx0 hs, h5xx1 hs2]
  · unfold makeRequestWithRetry
    rw [h0, h1, hnet0, hsucc hlt 1, hsucc hlt 0]

/-- Witness for C4 at a concrete server failing with a network error on
the first attempt and succeeding on the second: two attempts, one
1-second backoff, and the result is the payload as if no failure
occurred. -/
theorem c4_witness :
    makeRequestWithRetry
      (fun n => if n = 0 then HttpAttempt.netError "connection reset"
                else HttpAttempt.response 200 "" "" (some 42)) =
      ⟨Except.ok 42, 2, [netErrorBackoff]⟩ ∧
    (makeRequestWithRetry
      (fun n => if n = 0 then HttpAttempt.netError "connection reset"
                else HttpAttempt.response 200 "" "" (some 42))).attemptsMade ≤ 2 := by
  have h := c4_retry_policy
    (fun n => if n = 0 then HttpAttempt.netError "connection reset"
              else HttpAttempt.response 200 "" "" (some 42))
    "connection reset" "" "" "" "" "" 500 200 42 none none
  exact ⟨h.2.1 rfl rfl (by omega), h.1⟩

/- ### Token layer lemmas: base64url -/

theorem b64CharDec_b64Char (v : Nat) (h : v < 64) : b64CharDec (b64Char v) = some v := by
  interval_cases v <;> rfl

theorem b64Char_ne_dot (v : Nat) : b64Char v ≠ 46 := by
  unfold b64Char
  split_ifs <;> omega

theorem base64urlEncode_ne_dot (bs : List Nat) : ∀ c ∈ base64urlEncode bs, c ≠ 46 := by
  induction bs using base64urlEncode.induct with
  | case1 => simp [base64urlEncode]
  | case2 b1 =>
      intro c hc
      simp [base64urlEncode] at hc
      rcases hc with h | h <;> (subst h; exact b64Char_ne_dot _)
  | case3 b1 b2 =>
      intro c hc
      simp [base64urlEncode] at hc
      rcases hc with h | h | h <;> (subst h; exact b64Char_ne_dot _)
  | case4 b1 b2 b3 rest ih =>
      intro c hc
      simp only [base64urlEncode, List.mem_cons] at hc
      rcases hc with h | h | h | h | h
      · subst h; exact b64Char_ne_dot _
      · subst h; exact b64Char_ne_dot _
      · subst h; exact b64Char_ne_dot _
      · subst h; exact b64Char_ne_dot _
      · exact ih c h

theorem base64urlDecode_encode (bs : List Nat) (h : BytesOk bs) :
    base64urlDecode (base64urlEncode bs) = some bs := by
  induction bs using base64urlEncode.induct with
  | case1 => rfl
  | case2 b1 =>
      have hb1 : b1 < 256 := h b1 (by simp)
      simp only [base64urlEncode, base64urlDecode]
      rw [b64CharDec_b64Char _ (by omega), b64CharDec_b64Char _ (by omega)]
      simp only [Option.pure_def, Option.bind_eq_bind, Option.some_bind, Option.some.injEq,
        List.cons.injEq, eq_self_iff_true, and_true]
      omega
  | case3 b1 b2 =>
      have hb1 : b1 < 256 := h b1 (by simp)
      have hb2 : b2 < 256 := h b2 (by simp)
      simp only [base64urlEncode, base64urlDecode]
      rw [b64CharDec_b64Char _ (by omega), b64CharDec_b64Char _ (by omega),
        b64CharDec_b64Char _ (by omega)]
      simp only [Option.pure_def, Option.bind_eq_bind, Option.some_bind, Option.some.injEq,
        List.cons.injEq, eq_self_iff_true, and_true]
      omega
  | case4 b1 b2 b3 rest ih =>
      have hb1 : b1 < 256 := h b1 (by simp)
      have hb2 : b2 < 256 := h b2 (by simp)
      have hb3 : b3 < 256 := h b3 (by simp)
      have hrest : BytesOk rest := by
        intro x hx
        exact h x (by simp [hx])
      have htail := ih hrest
      simp only [base64urlEncode, base64urlDecode]
      rw [b64CharDec_b64Char _ (by omega), b64CharDec_b64Char _ (by omega),
        b64CharDec_b64Char _ (by omega), b64CharDec_b64Char _ (by omega), htail]
      simp only [Option.pure_def, Option.bind_eq_bind, Option.some_bind, Option.some.injEq,
        List.cons_append, List.nil_append, List.cons.injEq, eq_self_iff_true, and_true]
      omega

theorem base64urlEncode_inj (l1 l2 : List Nat) (h1 : BytesOk l1) (h2 : BytesOk l2)
    (h : base64urlEncode l1 = base64urlEncode l2) : l1 = l2 := by
  have e1 := base64urlDecode_encode l1 h1
  rw [h, base64urlDecode_encode l2 h2] at e1
  exact (Option.some.inj e1).symm

/- ### Token layer lemmas: strings.Split -/

theorem stringsSplit_not_mem (sep : Nat) (l : List Nat) (h : sep ∉ l) :
    stringsSplit sep l = [l] := by
  induction l with
  | nil => rfl
  | cons b rest ih =>
      have hb : b ≠ sep := fun hbe => h (by simp [hbe])
      have hr : sep ∉ rest := fun hre => h (by simp [hre])
      simp only [stringsSplit, if_neg hb, ih hr]

theorem stringsSplit_append_sep (sep : Nat) (l r : List Nat) (h : sep ∉ l) :
    stringsSplit sep (l ++ sep :: r) = l :: stringsSplit sep r := by
  induction l with
  | nil => simp [stringsSplit]
  | cons b t ih =>
      have hb : b ≠ sep := fun hbe => h (by simp [hbe])
      have ht : sep ∉ t := fun hte => h (by simp [hte])
      simp only [List.cons_append, stringsSplit, if_neg hb, List.append_eq, ih ht]

theorem stringsSplit_three (h c s : List Nat) (hh : 46 ∉ h) (hc : 46 ∉ c)
    (hs : 46 ∉ s) : stringsSplit 46 (h ++ 46 :: (c ++ 46 :: s)) = [h, c, s] := by
  rw [stringsSplit_append_sep _ _ _ hh, stringsSplit_append_sep _ _ _ hc,
    stringsSplit_not_mem _ _ hs]

theorem base64urlEncode_not_mem_dot (bs : List Nat) : 46 ∉ base64urlEncode bs :=
  fun hmem => base64urlEncode_ne_dot bs 46 hmem rfl

/- ### Token layer lemmas: json string escaping -/

theorem hexVal_hexDigitByte (n : Nat) (h : n < 16) : hexVal (hexDigitByte n) = some n := by
  interval_cases n <;> rfl

theorem jsonUnescape_escByte (b : Nat) (hb : b < 128) (X s r : List Nat)
    (hX : jsonUnescape X = some (s, r)) :
    jsonUnescape (jsonEscapeByte b ++ X) = some (b :: s, r) := by
  by_cases h34 : b = 34
  · subst h34
    simp [jsonEscapeByte, jsonUnescape, consUn, hX]
  · by_cases h92 : b = 92
    · subst h92
      simp [jsonEscapeByte, jsonUnescape, consUn, hX]
    · by_cases h10 : b = 10
      · subst h10
        simp [jsonEscapeByte, jsonUnescape, consUn, hX]
      · by_cases h13 : b = 13
        · subst h13
          simp [jsonEscapeByte, jsonUnescape, consUn, hX]
        · by_cases h9 : b = 9
          · subst h9
            simp [jsonEscapeByte, jsonUnescape, consUn, hX]
          · by_cases hu : b < 32 ∨ b = 60 ∨ b = 62 ∨ b = 38
            · have hb16 : b / 16 < 16 := by omega
              have hesc : jsonEscapeByte b =
                  [92, 117, 48, 48, hexDigitByte (b / 16), hexDigitByte (b % 16)] := by
                unfold jsonEscapeByte
                rw [if_neg h34, if_neg h92, if_neg h10, if_neg h13, if_neg h9, if_pos hu]
              have henc : utf8EncodeRune (0 * 4096 + 0 * 256 + b / 16 * 16 + b % 16) =
                  [b] := by
                have hveq : 0 * 4096 + 0 * 256 + b / 16 * 16 + b % 16 = b := by omega
                rw [hveq]
                unfold utf8EncodeRune
                rw [if_pos hb]
              rw [hesc]
              simp only [List.cons_append, List.nil_append, jsonUnescape,
                show hexVal 48 = some 0 from rfl, hexVal_hexDigitByte _ hb16,
                hexVal_hexDigitByte _ (show b % 16 < 16 by omega), henc, appendUn]
              simp [hX]
            · have hesc : jsonEscapeByte b = [b] := by
                unfold jsonEscapeByte
                rw [if_neg h34, if_neg h92, if_neg h10, if_neg h13, if_neg h9, if_neg hu]
              rw [hesc]
              simp only [List.cons_append, List.nil_append]
              simp [jsonUnescape, h34, h92, consUn, hX]

theorem jsonUnescape_escape (s : List Nat) :
    ∀ rest, utf8Valid s = true →
      jsonUnescape (jsonEscape s ++ 34 :: rest) = some (s, rest) := by
  induction s using jsonEscape.induct with
  | case1 =>
      intro rest _
      rfl
  | case2 b hb =>
      intro rest _
      rw [show jsonEscape [b] = jsonEscapeByte b from by simp [jsonEscape, hb]]
      exact jsonUnescape_escByte b hb (34 :: rest) [] rest rfl
  | case3 b hb =>
      intro rest hv
      exact absurd (by simpa [utf8Valid] using hv) hb
  | case4 c1 c2 h1 ih =>
      intro rest hv
      have hv2 : utf8Valid [c2] = true := by simpa [utf8Valid, h1] using hv
      rw [show jsonEscape [c1, c2] = jsonEscapeByte c1 ++ jsonEscape [c2] from by
        simp [jsonEscape, h1]]
      rw [List.append_assoc]
      exact jsonUnescape_escByte c1 h1 _ [c2] rest (ih rest hv2)
  | case5 c1 c2 h1 h2 =>
      intro rest _
      rw [show jsonEscape [c1, c2] = [c1, c2] from by simp [jsonEscape, h1, h2]]
      simp only [List.cons_append, List.nil_append]
      simp [jsonUnescape, consUn, show ¬c1 = 34 by omega, show ¬c1 = 92 by omega,
        show ¬c2 = 34 by omega, show ¬c2 = 92 by omega]
  | case6 c1 c2 h1 h2 ih =>
      intro rest hv
      exfalso
      simp [utf8Valid, h1] at hv
      exact h2 hv
  | case7 c1 c2 c3 h1 ih =>
      intro rest hv
      have hv2 : utf8Valid [c2, c3] = true := by simpa [utf8Valid, h1] using hv
      rw [show jsonEscape [c1, c2, c3] = jsonEscapeByte c1 ++ jsonEscape [c2, c3] from by
        simp [jsonEscape, h1]]
      rw [List.append_assoc]
      exact jsonUnescape_escByte c1 h1 _ [c2, c3] rest (ih rest hv2)
  | case8 c1 c2 c3 h1 h2 ih =>
      intro rest hv
      have hv2 : utf8Valid [c3] = true := by simpa [utf8Valid, h1, h2] using hv
      rw [show jsonEscape [c1, c2, c3] = c1 :: c2 :: jsonEscape [c3] from by
        simp [jsonEscape, h1, h2]]
      simp only [List.cons_append]
      simp [jsonUnescape, consUn, show ¬c1 = 34 by omega, show ¬c1 = 92 by omega,
        show ¬c2 = 34 by omega, show ¬c2 = 92 by omega, ih rest hv2]
  | case9 c1 c2 c3 h1 h2 h3 =>
      intro rest _
      obtain ⟨hr1, hcont, hr3⟩ := h3
      by_cases e28 : (c1 - 224) * 4096 + (c2 - 128) * 64 + (c3 - 128) = 8232
      · have hc : c1 = 226 ∧ c2 = 128 ∧ c3 = 168 := by
          rcases hcont with ⟨hl, hc2⟩ | ⟨hl, hc2⟩ | ⟨hn1, hn2, hc2⟩ <;> omega
        obtain ⟨rfl, rfl, rfl⟩ := hc
        simp [jsonEscape, jsonEscape3, utf8Cont3, jsonUnescape, hexVal,
          utf8EncodeRune, appendUn, consUn]
      · by_cases e29 : (c1 - 224) * 4096 + (c2 - 128) * 64 + (c3 - 128) = 8233
        · have hc : c1 = 226 ∧ c2 = 128 ∧ c3 = 169 := by
            rcases hcont with ⟨hl, hc2⟩ | ⟨hl, hc2⟩ | ⟨hn1, hn2, hc2⟩ <;> omega
          obtain ⟨rfl, rfl, rfl⟩ := hc
          simp [jsonEscape, jsonEscape3, utf8Cont3, jsonUnescape, hexVal,
            utf8EncodeRune, appendUn, consUn]
        · have hc2lo : 128 ≤ c2 := by
            rcases hcont with ⟨hl, hc2⟩ | ⟨hl, hc2⟩ | ⟨hn1, hn2, hc2⟩ <;> omega
          rw [show jsonEscape [c1, c2, c3] = [c1, c2, c3] from by
            simp [jsonEscape, jsonEscape3, h1, h2, e28, e29, hr1, hr3]
            exact fun h => absurd h (by simpa using hcont)]
          simp only [List.cons_append, List.nil_append]
          simp [jsonUnescape, consUn, show ¬c1 = 34 by omega, show ¬c1 = 92 by omega,
            show ¬c2 = 34 by omega, show ¬c2 = 92 by omega,
            show ¬c3 = 34 by omega, show ¬c3 = 92 by omega]
  | case10 c1 c2 c3 h1 h2 h3 ih =>
      intro rest hv
      exfalso
      simp [utf8Valid, h1, h2] at hv
      exact h3 hv
  | case11 c1 c2 c3 c4 r h1 ih =>
      intro rest hv
      have hv2 : utf8Valid (c2 :: c3 :: c4 :: r) = true := by
        simpa [utf8Valid, h1] using hv
      rw [show jsonEscape (c1 :: c2 :: c3 :: c4 :: r) =
          jsonEscapeByte c1 ++ jsonEscape (c2 :: c3 :: c4 :: r) from by
        simp [jsonEscape, h1]]
      rw [List.append_assoc]
      exact jsonUnescape_escByte c1 h1 _ (c2 :: c3 :: c4 :: r) rest (ih rest hv2)
  | case12 c1 c2 c3 c4 r h1 h2 ih =>
      intro rest hv
      have hv2 : utf8Valid (c3 :: c4 :: r) = true := by
        simpa [utf8Valid, h1, h2] using hv
      rw [show jsonEscape (c1 :: c2 :: c3 :: c4 :: r) =
          c1 :: c2 :: jsonEscape (c3 :: c4 :: r) from by simp [jsonEscape, h1, h2]]
      simp only [List.cons_append]
      simp [jsonUnescape, consUn, show ¬c1 = 34 by omega, show ¬c1 = 92 by omega,
        show ¬c2 = 34 by omega, show ¬c2 = 92 by omega, ih rest hv2]
  | case13 c1 c2 c3 c4 r h1 h2 h3 ih =>
      intro rest hv
      have hv2 : utf8Valid (c4 :: r) = true := by
        simpa [utf8Valid, h1, h2, h3] using hv
      obtain ⟨hr1, hcont, hr3⟩ := h3
      have hesc : jsonEscape (c1 :: c2 :: c3 :: c4 :: r) =
          jsonEscape3 c1 c2 c3 ++ jsonEscape (c4 :: r) := by
        simp [jsonEscape, h1, h2, hr1, hcont, hr3]
      rw [hesc, List.append_assoc]
      by_cases e28 : (c1 - 224) * 4096 + (c2 - 128) * 64 + (c3 - 128) = 8232
      · have hc : c1 = 226 ∧ c2 = 128 ∧ c3 = 168 := by
          rcases hcont with ⟨hl, hc2⟩ | ⟨hl, hc2⟩ | ⟨hn1, hn2, hc2⟩ <;> omega
        obtain ⟨rfl, rfl, rfl⟩ := hc
        simp [jsonEscape3, jsonUnescape, hexVal, utf8EncodeRune, appendUn,
          ih rest hv2]
      · by_cases e29 : (c1 - 224) * 4096 + (c2 - 128) * 64 + (c3 - 128) = 8233
        · have hc : c1 = 226 ∧ c2 = 128 ∧ c3 = 169 := by
            rcases hcont with ⟨hl, hc2⟩ | ⟨hl, hc2⟩ | ⟨hn1, hn2, hc2⟩ <;> omega
          obtain ⟨rfl, rfl, rfl⟩ := hc
          simp [jsonEscape3, jsonUnescape, hexVal, utf8EncodeRune, appendUn,
            ih rest hv2]
        · have hc2lo : 128 ≤ c2 := by
            rcases hcont with ⟨hl, hc2⟩ | ⟨hl, hc2⟩ | ⟨hn1, hn2, hc2⟩ <;> omega
          rw [show jsonEscape3 c1 c2 c3 = [c1, c2, c3] from by
            simp [jsonEscape3, e28, e29]]
          simp only [List.cons_append, List.nil_append]
          simp [jsonUnescape, consUn, show ¬c1 = 34 by omega, show ¬c1 = 92 by omega,
            show ¬c2 = 34 by omega, show ¬c2 = 92 by omega,
            show ¬c3 = 34 by omega, show ¬c3 = 92 by omega, ih rest hv2]
  | case14 c1 c2 c3 c4 r h1 h2 h3 h4 ih =>
      intro rest hv
      obtain ⟨hr1, hcont, hr3, hr4⟩ := h4
      have hno3 : ¬(224 ≤ c1 ∧ c1 ≤ 239) := by omega
      have hv2 : utf8Valid r = true := by
        simpa [utf8Valid, h1, h2, hno3, hr1, hcont, hr3, hr4] using hv
      have hc2lo : 128 ≤ c2 := by
        rcases hcont with ⟨hl, hc2⟩ | ⟨hl, hc2⟩ | ⟨hn1, hn2, hc2⟩ <;> omega
      rw [show jsonEscape (c1 :: c2 :: c3 :: c4 :: r) =
          c1 :: c2 :: c3 :: c4 :: jsonEscape r from by
        simp [jsonEscape, hno3, h1, h2, hr1, hcont, hr3, hr4]]
      simp only [List.cons_append]
      simp [jsonUnescape, consUn, show ¬c1 = 34 by omega, show ¬c1 = 92 by omega,
        show ¬c2 = 34 by omega, show ¬c2 = 92 by omega,
        show ¬c3 = 34 by omega, show ¬c3 = 92 by omega,
        show ¬c4 = 34 by omega, show ¬c4 = 92 by omega, ih rest hv2]
  | case15 c1 c2 c3 c4 r h1 h2 h3 h4 ih =>
      intro rest hv
      exfalso
      simp [utf8Valid, h1, h2, h3, h4] at hv

theorem expectBytes_append (lit rest : List Nat) :
    expectBytes lit (lit ++ rest) = some rest := by
  induction lit with
  | nil => rfl
  | cons l ls ih => simp [expectBytes, ih]

/- ### Token layer lemmas: decimal printing and parsing -/

theorem toDecBytes_digits (n : Nat) : ∀ d ∈ toDecBytes n, 48 ≤ d ∧ d ≤ 57 := by
  induction n using Nat.strong_induction_on with
  | _ n ih =>
      rw [toDecBytes]
      split_ifs with h
      · intro d hd
        simp at hd
        omega
      · intro d hd
        rw [List.mem_append] at hd
        rcases hd with hd | hd
        · exact ih (n / 10) (Nat.div_lt_self (by omega) (by omega)) d hd
        · simp at hd
          omega

theorem toDecBytes_ne_nil (n : Nat) : toDecBytes n ≠ [] := by
  rw [toDecBytes]
  split_ifs <;> simp

theorem digitsToNat_append_one (l : List Nat) (d : Nat) :
    digitsToNat (l ++ [d]) = digitsToNat l * 10 + (d - 48) := by
  simp [digitsToNat, List.foldl_append]

theorem digitsToNat_toDecBytes (n : Nat) : digitsToNat (toDecBytes n) = n := by
  induction n using Nat.strong_induction_on with
  | _ n ih =>
      rw [toDecBytes]
      split_ifs with h
      · simp [digitsToNat]
      · rw [digitsToNat_append_one, ih (n / 10) (Nat.div_lt_self (by omega) (by omega))]
        omega

theorem takeDigits_digits_append (ds rest : List Nat)
    (hds : ∀ d ∈ ds, 48 ≤ d ∧ d ≤ 57)
    (hrest : ∀ b, rest.head? = some b → ¬(48 ≤ b ∧ b ≤ 57)) :
    takeDigits (ds ++ rest) = (ds, rest) := by
  induction ds with
  | nil =>
      cases rest with
      | nil => rfl
      | cons b t =>
          simp only [List.nil_append, takeDigits]
          rw [if_neg (hrest b rfl)]
  | cons d ds ih =>
      have hd := hds d (by simp)
      simp only [List.cons_append, takeDigits, List.append_eq]
      rw [if_pos hd, ih (fun x hx => hds x (by simp [hx]))]

theorem parseNatBytes_toDecBytes (n : Nat) (rest : List Nat)
    (hrest : ∀ b, rest.head? = some b → ¬(48 ≤ b ∧ b ≤ 57)) :
    parseNatBytes (toDecBytes n ++ rest) = some (n, rest) := by
  unfold parseNatBytes
  rw [takeDigits_digits_append _ _ (toDecBytes_digits n) hrest]
  simp [toDecBytes_ne_nil n, digitsToNat_toDecBytes]

/- ### Token layer lemmas: marshalling round trips -/

theorem head44_not_digit (X : List Nat) :
    ∀ b, ((ascii ",\"exp\":" ++ X).head?) = some b → ¬(48 ≤ b ∧ b ≤ 57) := by
  intro b hb
  rw [show ((ascii ",\"exp\":" ++ X).head?) = some 44 from rfl] at hb
  injection hb with h
  omega

theorem head125_not_digit :
    ∀ b, ((ascii "\x7d" : List Nat).head?) = some b → ¬(48 ≤ b ∧ b ≤ 57) := by
  intro b hb
  rw [show ((ascii "\x7d" : List Nat).head?) = some 125 from rfl] at hb
  injection hb with h
  omega

theorem parseClaims_marshalClaims (c : JwtClaims)
    (hv1 : utf8Valid c.userId = true) (hv2 : utf8Valid c.login = true)
    (hv3 : utf8Valid c.email = true) (hv4 : utf8Valid c.githubToken = true) :
    parseClaims (marshalClaims c) = some c := by
  have hsplit1 : (ascii "\",\"login\":\"" : List Nat) = 34 :: ascii ",\"login\":\"" := rfl
  have hsplit2 : (ascii "\",\"email\":\"" : List Nat) = 34 :: ascii ",\"email\":\"" := rfl
  have hsplit3 : (ascii "\",\"github_token\":\"" : List Nat) =
    34 :: ascii ",\"github_token\":\"" := rfl
  have hsplit4 : (ascii "\",\"iat\":" : List Nat) = 34 :: ascii ",\"iat\":" := rfl
  unfold marshalClaims parseClaims
  rw [hsplit1, hsplit2, hsplit3, hsplit4]
  simp only [List.append_assoc, List.cons_append]
  rw [expectBytes_append]
  dsimp only
  rw [jsonUnescape_escape _ _ hv1]
  dsimp only
  rw [expectBytes_append]
  dsimp only
  rw [jsonUnescape_escape _ _ hv2]
  dsimp only
  rw [expectBytes_append]
  dsimp only
  rw [jsonUnescape_escape _ _ hv3]
  dsimp only
  rw [expectBytes_append]
  dsimp only
  rw [jsonUnescape_escape _ _ hv4]
  dsimp only
  rw [expectBytes_append]
  dsimp only
  rw [parseNatBytes_toDecBytes c.iat
    (ascii ",\"exp\":" ++ (toDecBytes c.exp ++ ascii "\x7d")) (head44_not_digit _)]
  dsimp only
  rw [expectBytes_append]
  dsimp only
  rw [parseNatBytes_toDecBytes c.exp (ascii "\x7d") head125_not_digit]
  dsimp only
  rw [if_pos rfl]

theorem parseHeader_marshalHeader :
    parseHeader marshalHeader = some (ascii "HS256", ascii "JWT") := by
  have hm : marshalHeader =
      ascii "\x7b\"alg\":\"" ++ (jsonEscape (ascii "HS256") ++
        (34 :: (ascii ",\"typ\":\"" ++ (jsonEscape (ascii "JWT") ++
          (34 :: ascii "\x7d"))))) := by decide
  unfold parseHeader
  rw [hm, expectBytes_append]
  dsimp only
  rw [jsonUnescape_escape (ascii "HS256") _ (by decide)]
  dsimp only
  rw [expectBytes_append]
  dsimp only
  rw [jsonUnescape_escape (ascii "JWT") _ (by decide)]
  dsimp only
  rw [if_pos rfl]

/- ### Token layer lemmas: byte bounds -/

theorem bytesOk_append (a b : List Nat) (ha : BytesOk a) (hb : BytesOk b) :
    BytesOk (a ++ b) := by
  intro x hx
  rcases List.mem_append.mp hx with h | h
  · exact ha x h
  · exact hb x h

theorem hexDigitByte_lt (n : Nat) (h : n < 16) : hexDigitByte n < 256 := by
  unfold hexDigitByte
  split_ifs <;> omega

theorem jsonEscapeByte_bytesOk (b : Nat) (hb : b < 256) :
    ∀ x ∈ jsonEscapeByte b, x < 256 := by
  unfold jsonEscapeByte
  split_ifs with h1 h2 h3 h4 h5 h6
  all_goals intro x hx
  all_goals simp at hx
  · rcases hx with rfl | rfl
    all_goals omega
  · rcases hx with rfl | rfl
    all_goals omega
  · rcases hx with rfl | rfl
    all_goals omega
  · rcases hx with rfl | rfl
    all_goals omega
  · rcases hx with rfl | rfl
    all_goals omega
  · rcases hx with rfl | rfl | rfl | rfl | rfl | rfl
    all_goals
      first
        | omega
        | exact hexDigitByte_lt _ (by omega)
  · subst hx
    omega

theorem bytesOk_cons (b : Nat) (l : List Nat) (hb : b < 256) (hl : BytesOk l) :
    BytesOk (b :: l) := by
  intro x hx
  rcases List.mem_cons.mp hx with rfl | h
  · exact hb
  · exact hl x h

theorem jsonEscape3_bytesOk (c1 c2 c3 : Nat) (h1 : c1 < 256) (h2 : c2 < 256)
    (h3 : c3 < 256) : BytesOk (jsonEscape3 c1 c2 c3) := by
  unfold jsonEscape3
  split_ifs
  · decide
  · decide
  · intro x hx
    simp at hx
    rcases hx with rfl | rfl | rfl <;> omega

theorem jsonEscape_bytesOk (s : List Nat) : BytesOk (jsonEscape s) := by
  induction s using jsonEscape.induct with
  | case1 => intro x hx; simp [jsonEscape] at hx
  | case2 b hb =>
      rw [show jsonEscape [b] = jsonEscapeByte b from by simp [jsonEscape, hb]]
      exact jsonEscapeByte_bytesOk b (by omega)
  | case3 b hb =>
      rw [show jsonEscape [b] = ascii "\\ufffd" from by simp [jsonEscape, hb]]
      decide
  | case4 c1 c2 h1 ih =>
      rw [show jsonEscape [c1, c2] = jsonEscapeByte c1 ++ jsonEscape [c2] from by
        simp [jsonEscape, h1]]
      exact bytesOk_append _ _ (jsonEscapeByte_bytesOk c1 (by omega)) ih
  | case5 c1 c2 h1 h2 =>
      rw [show jsonEscape [c1, c2] = [c1, c2] from by simp [jsonEscape, h1, h2]]
      intro x hx
      simp at hx
      rcases hx with rfl | rfl <;> omega
  | case6 c1 c2 h1 h2 ih =>
      rw [show jsonEscape [c1, c2] = ascii "\\ufffd" ++ jsonEscape [c2] from by
        simp [jsonEscape, h1, h2]]
      exact bytesOk_append _ _ (by decide) ih
  | case7 c1 c2 c3 h1 ih =>
      rw [show jsonEscape [c1, c2, c3] = jsonEscapeByte c1 ++ jsonEscape [c2, c3] from by
        simp [jsonEscape, h1]]
      exact bytesOk_append _ _ (jsonEscapeByte_bytesOk c1 (by omega)) ih
  | case8 c1 c2 c3 h1 h2 ih =>
      rw [show jsonEscape [c1, c2, c3] = c1 :: c2 :: jsonEscape [c3] from by
        simp [jsonEscape, h1, h2]]
      exact bytesOk_cons _ _ (by omega) (bytesOk_cons _ _ (by omega) ih)
  | case9 c1 c2 c3 h1 h2 h3 =>
      obtain ⟨hr1, hcont, hr3⟩ := h3
      have hc2 : c2 ≤ 191 := by
        rcases hcont with ⟨hl, hc⟩ | ⟨hl, hc⟩ | ⟨hn1, hn2, hc⟩ <;> omega
      rw [show jsonEscape [c1, c2, c3] = jsonEscape3 c1 c2 c3 from by
        simp [jsonEscape, h1, h2, hr1, hcont, hr3]]
      exact jsonEscape3_bytesOk c1 c2 c3 (by omega) (by omega) (by omega)
  | case10 c1 c2 c3 h1 h2 h3 ih =>
      rw [show jsonEscape [c1, c2, c3] = ascii "\\ufffd" ++ jsonEscape [c2, c3] from by
        simp [jsonEscape, h1, h2, h3]]
      exact bytesOk_append _ _ (by decide) ih
  | case11 c1 c2 c3 c4 r h1 ih =>
      rw [show jsonEscape (c1 :: c2 :: c3 :: c4 :: r) =
          jsonEscapeByte c1 ++ jsonEscape (c2 :: c3 :: c4 :: r) from by
        simp [jsonEscape, h1]]
      exact bytesOk_append _ _ (jsonEscapeByte_bytesOk c1 (by omega)) ih
  | case12 c1 c2 c3 c4 r h1 h2 ih =>
      rw [show jsonEscape (c1 :: c2 :: c3 :: c4 :: r) =
          c1 :: c2 :: jsonEscape (c3 :: c4 :: r) from by simp [jsonEscape, h1, h2]]
      exact bytesOk_cons _ _ (by omega) (bytesOk_cons _ _ (by omega) ih)
  | case13 c1 c2 c3 c4 r h1 h2 h3 ih =>
      obtain ⟨hr1, hcont, hr3⟩ := h3
      have hc2 : c2 ≤ 191 := by
        rcases hcont with ⟨hl, hc⟩ | ⟨hl, hc⟩ | ⟨hn1, hn2, hc⟩ <;> omega
      rw [show jsonEscape (c1 :: c2 :: c3 :: c4 :: r) =
          jsonEscape3 c1 c2 c3 ++ jsonEscape (c4 :: r) from by
        simp [jsonEscape, h1, h2, hr1, hcont, hr3]]
      exact bytesOk_append _ _
        (jsonEscape3_bytesOk c1 c2 c3 (by omega) (by omega) (by omega)) ih
  | case14 c1 c2 c3 c4 r h1 h2 h3 h4 ih =>
      obtain ⟨hr1, hcont, hr3, hr4⟩ := h4
      have hno3 : ¬(224 ≤ c1 ∧ c1 ≤ 239) := by omega
      have hc2 : c2 ≤ 191 := by
        rcases hcont with ⟨hl, hc⟩ | ⟨hl, hc⟩ | ⟨hn1, hn2, hc⟩ <;> omega
      rw [show jsonEscape (c1 :: c2 :: c3 :: c4 :: r) =
          c1 :: c2 :: c3 :: c4 :: jsonEscape r from by
        simp [jsonEscape, hno3, h1, h2, hr1, hcont, hr3, hr4]]
      exact bytesOk_cons _ _ (by omega) (bytesOk_cons _ _ (by omega)
        (bytesOk_cons _ _ (by omega) (bytesOk_cons _ _ (by omega) ih)))
  | case15 c1 c2 c3 c4 r h1 h2 h3 h4 ih =>
      rw [show jsonEscape (c1 :: c2 :: c3 :: c4 :: r) =
          ascii "\\ufffd" ++ jsonEscape (c2 :: c3 :: c4 :: r) from by
        simp [jsonEscape, h1, h2, h3, h4]]
      exact bytesOk_append _ _ (by decide) ih

theorem toDecBytes_bytesOk (n : Nat) : BytesOk (toDecBytes n) := by
  intro d hd
  have := toDecBytes_digits n d hd
  omega

theorem marshalClaims_bytesOk (c : JwtClaims) : BytesOk (marshalClaims c) := by
  unfold marshalClaims
  repeat' apply bytesOk_append
  all_goals
    first
      | decide
      | exact jsonEscape_bytesOk _
      | exact toDecBytes_bytesOk _

/- ### Token layer lemmas: digest shape -/

theorem wordBytes_bytesOk (w : Nat) : ∀ b ∈ wordBytes w, b < 256 := by
  intro b hb
  simp [wordBytes] at hb
  rcases hb with rfl | rfl | rfl | rfl <;> exact Nat.mod_lt _ (by omega)

theorem sha256_length (m : List Nat) : (sha256 m).length = 32 := by
  simp [sha256, wordBytes]

theorem sha256_bytesOk (m : List Nat) : BytesOk (sha256 m) := by
  intro b hb
  unfold sha256 at hb
  simp only [List.mem_append] at hb
  rcases hb with ((((((h | h) | h) | h) | h) | h) | h) | h <;>
    exact wordBytes_bytesOk _ b h

theorem hmacSha256_length (k m : List Nat) : (hmacSha256 k m).length = 32 := by
  unfold hmacSha256
  exact sha256_length _

theorem hmacSha256_bytesOk (k m : List Nat) : BytesOk (hmacSha256 k m) := by
  unfold hmacSha256
  exact sha256_bytesOk _

/- ### Token layer lemmas: validation of generated tokens -/

theorem validateJWT_generate_eval (secret secret2 : List Nat) (u : User) (now t : Nat)
    (hu : UserStringsOk u)
    (hsig : hmacSha256 secret2 (jwtSignedMessage u now) =
      hmacSha256 secret (jwtSignedMessage u now)) :
    ValidateJWT secret2 (GenerateJWT secret u now) t =
      if now + 86400 < t then none
      else if t + 60 < now then none
      else some u := by
  obtain ⟨hu1, hu2, hu3, hu4⟩ := hu
  have hmcOk : BytesOk (marshalClaims
      ⟨u.id, u.login, u.email, u.githubToken, now, now + 86400⟩) :=
    marshalClaims_bytesOk _
  have htok : GenerateJWT secret u now =
      base64urlEncode marshalHeader ++ 46 ::
        (base64urlEncode (marshalClaims
          ⟨u.id, u.login, u.email, u.githubToken, now, now + 86400⟩) ++ 46 ::
            createSignature secret (jwtSignedMessage u now)) := by
    simp [GenerateJWT, jwtSignedMessage, createSignature, List.append_assoc]
  have hnds : 46 ∉ createSignature secret (jwtSignedMessage u now) :=
    show 46 ∉ base64urlEncode (hmacSha256 secret (jwtSignedMessage u now)) from
      base64urlEncode_not_mem_dot _
  unfold ValidateJWT
  rw [htok, stringsSplit_three _ _ _ (base64urlEncode_not_mem_dot _)
    (base64urlEncode_not_mem_dot _) hnds]
  dsimp only
  rw [show base64urlEncode marshalHeader ++ [46] ++
      base64urlEncode (marshalClaims
        ⟨u.id, u.login, u.email, u.githubToken, now, now + 86400⟩) =
      jwtSignedMessage u now from by simp [jwtSignedMessage, List.append_assoc]]
  have hsigeq : createSignature secret2 (jwtSignedMessage u now) =
      createSignature secret (jwtSignedMessage u now) := by
    unfold createSignature
    rw [hsig]
  rw [hsigeq, if_neg (fun hne => hne rfl)]
  rw [base64urlDecode_encode marshalHeader (by decide)]
  dsimp only
  rw [parseHeader_marshalHeader]
  dsimp only
  rw [if_neg (by decide)]
  rw [base64urlDecode_encode _ hmcOk]
  dsimp only
  rw [parseClaims_marshalClaims _ hu1 hu2 hu3 hu4]

theorem validateJWT_generate_badsig (secret secret2 : List Nat) (u : User)
    (now t : Nat)
    (hsig : hmacSha256 secret2 (jwtSignedMessage u now) ≠
      hmacSha256 secret (jwtSignedMessage u now)) :
    ValidateJWT secret2 (GenerateJWT secret u now) t = none := by
  have htok : GenerateJWT secret u now =
      base64urlEncode marshalHeader ++ 46 ::
        (base64urlEncode (marshalClaims
          ⟨u.id, u.login, u.email, u.githubToken, now, now + 86400⟩) ++ 46 ::
            createSignature secret (jwtSignedMessage u now)) := by
    simp [GenerateJWT, jwtSignedMessage, createSignature, List.append_assoc]
  have hnds : 46 ∉ createSignature secret (jwtSignedMessage u now) :=
    show 46 ∉ base64urlEncode (hmacSha256 secret (jwtSignedMessage u now)) from
      base64urlEncode_not_mem_dot _
  unfold ValidateJWT
  rw [htok, stringsSplit_three _ _ _ (base64urlEncode_not_mem_dot _)
    (base64urlEncode_not_mem_dot _) hnds]
  dsimp only
  rw [show base64urlEncode marshalHeader ++ [46] ++
      base64urlEncode (marshalClaims
        ⟨u.id, u.login, u.email, u.githubToken, now, now + 86400⟩) =
      jwtSignedMessage u now from by simp [jwtSignedMessage, List.append_assoc]]
  rw [if_pos (fun h =>
    hsig (base64urlEncode_inj _ _ (hmacSha256_bytesOk _ _) (hmacSha256_bytesOk _ _)
      h.symm))]

theorem validateJWT_tampered_sig (secret : List Nat) (u : User) (now t : Nat)
    (sig2 : List Nat) (hnd : 46 ∉ sig2)
    (hne : sig2 ≠ createSignature secret (jwtSignedMessage u now)) :
    ValidateJWT secret (jwtSignedMessage u now ++ 46 :: sig2) t = none := by
  have htok2 : jwtSignedMessage u now ++ 46 :: sig2 =
      base64urlEncode marshalHeader ++ 46 ::
        (base64urlEncode (marshalClaims
          ⟨u.id, u.login, u.email, u.githubToken, now, now + 86400⟩) ++ 46 :: sig2) := by
    simp [jwtSignedMessage, List.append_assoc]
  unfold ValidateJWT
  rw [htok2, stringsSplit_three _ _ _ (base64urlEncode_not_mem_dot _)
    (base64urlEncode_not_mem_dot _) hnd]
  dsimp only
  rw [show base64urlEncode marshalHeader ++ [46] ++
      base64urlEncode (marshalClaims
        ⟨u.id, u.login, u.email, u.githubToken, now, now + 86400⟩) =
      jwtSignedMessage u now from by simp [jwtSignedMessage, List.append_assoc]]
  rw [if_pos hne]

theorem ofDigits_inj256 (l1 : List Nat) : ∀ l2 : List Nat, l1.length = l2.length →
    (∀ b ∈ l1, b < 256) → (∀ b ∈ l2, b < 256) →
    Nat.ofDigits 256 l1 = Nat.ofDigits 256 l2 → l1 = l2 := by
  induction l1 with
  | nil =>
      intro l2 hlen _ _ _
      cases l2 with
      | nil => rfl
      | cons b t => simp at hlen
  | cons a t ih =>
      intro l2 hlen h1 h2 h
      cases l2 with
      | nil => simp at hlen
      | cons b t2 =>
          have ha := h1 a (by simp)
          have hb := h2 b (by simp)
          simp only [Nat.ofDigits_cons] at h
          have hab : a = b ∧ Nat.ofDigits 256 t = Nat.ofDigits 256 t2 := by
            constructor <;> omega
          obtain ⟨rfl, ht⟩ := hab
          rw [ih t2 (by simpa using hlen) (fun x hx => h1 x (by simp [hx]))
            (fun x hx => h2 x (by simp [hx])) ht]

/- ### C10 -/

/-- C10 counterexample: the claim quantifies over every pair of
different secrets, but HMAC-SHA256 maps the infinitely many secrets
into finitely many 32-byte signatures, so by the pigeonhole principle
two different secrets sign the fixed message identically and the token
generated under one validates under the other. -/
theorem c10_counterexample :
    ¬ (∀ (s1 s2 : List Nat) (u : User) (now t : Nat), UserStringsOk u →
        t ≤ now + 86400 → now ≤ t + 60 → s1 ≠ s2 →
        ValidateJWT s2 (GenerateJWT s1 u now) t = none) := by
  intro hclaim
  set m := jwtSignedMessage (⟨[], [], [], []⟩ : User) 0 with hm
  have hbound : ∀ n : ℕ,
      Nat.ofDigits 256 (hmacSha256 (List.replicate n 97) m) < 256 ^ 32 := by
    intro n
    have hlt := Nat.ofDigits_lt_base_pow_length (by omega : (1 : ℕ) < 256)
      (fun d hd => hmacSha256_bytesOk (List.replicate n 97) m d hd)
    rwa [hmacSha256_length] at hlt
  obtain ⟨n1, n2, hne, heq⟩ := Finite.exists_ne_map_eq_of_infinite
    (fun n : ℕ =>
      (⟨Nat.ofDigits 256 (hmacSha256 (List.replicate n 97) m), hbound n⟩ : Fin (256 ^ 32)))
  have hof := congrArg (fun x : Fin (256 ^ 32) => x.val) heq
  simp only [Fin.val_mk] at hof
  have hlists : hmacSha256 (List.replicate n1 97) m =
      hmacSha256 (List.replicate n2 97) m :=
    ofDigits_inj256 _ _ (by rw [hmacSha256_length, hmacSha256_length])
      (hmacSha256_bytesOk _ _) (hmacSha256_bytesOk _ _) hof
  have hsne : List.replicate n1 97 ≠ List.replicate n2 97 := by
    intro h
    exact hne (by simpa using congrArg List.length h)
  have hval := hclaim (List.replicate n1 97) (List.replicate n2 97)
    ⟨[], [], [], []⟩ 0 0 (by decide) (by omega) (by omega) hsne
  rw [validateJWT_generate_eval (List.replicate n1 97) (List.replicate n2 97)
    ⟨[], [], [], []⟩ 0 0 (by decide) (by rw [← hm]; exact hlists.symm)] at hval
  simp at hval

/-- C10 amended: for a user whose string fields are valid UTF-8, a
token generated under a secret and validated under the same secret
before the 24-hour expiry yields the original user fields; after
expiry validation fails; replacing the signature part by any other
dot-free string fails; and validation under a different secret fails
whenever the two secrets HMAC-sign the token message differently,
which the construction cannot guarantee for every pair of secrets. -/
theorem c10_construct_verify (secret : List Nat) (u : User) (now t : Nat)
    (hu : UserStringsOk u) (h1 : t ≤ now + 86400) (h2 : now ≤ t + 60) :
    ValidateJWT secret (GenerateJWT secret u now) t = some u ∧
    (∀ t2, now + 86400 < t2 → ValidateJWT secret (GenerateJWT secret u now) t2 = none) ∧
    (∀ sig2, 46 ∉ sig2 → sig2 ≠ createSignature secret (jwtSignedMessage u now) →
      ValidateJWT secret (jwtSignedMessage u now ++ 46 :: sig2) t = none) ∧
    (∀ secret2, hmacSha256 secret2 (jwtSignedMessage u now) ≠
        hmacSha256 secret (jwtSignedMessage u now) →
      ValidateJWT secret2 (GenerateJWT secret u now) t = none) := by
  refine ⟨?_, fun t2 ht2 => ?_,
    fun sig2 hnd hne => validateJWT_tampered_sig _ _ _ _ _ hnd hne,
    fun secret2 hs => validateJWT_generate_badsig _ _ _ _ _ hs⟩
  · rw [validateJWT_generate_eval secret secret u now t hu rfl,
      if_neg (by omega), if_neg (by omega)]
  · rw [validateJWT_generate_eval secret secret u now t2 hu rfl, if_pos ht2]

/-- Witness for C10 amended: the round trip at the concrete user and
secret of the repository test suite, validated five seconds after
issue. -/
theorem c10_witness :
    ValidateJWT (ascii "test-secret-key")
      (GenerateJWT (ascii "test-secret-key")
        ⟨ascii "12345", ascii "testuser", ascii "test@example.com",
          ascii "github-token-123"⟩ 1700000000) 1700000005 =
      some ⟨ascii "12345", ascii "testuser", ascii "test@example.com",
        ascii "github-token-123"⟩ :=
  (c10_construct_verify (ascii "test-secret-key")
    ⟨ascii "12345", ascii "testuser", ascii "test@example.com",
      ascii "github-token-123"⟩ 1700000000 1700000005
    (by decide) (by omega) (by omega)).1

end ContextKeeper
